import Mathlib

/-!
Verification development for the gpunow cluster lifecycle orchestrator.

The definitions below are a shallow embedding of the Go sources under
`go/internal` (state store, lifecycle states, subnet allocator, cluster
service, status reconciler).  Strings are modelled with Lean `String`
(ASCII fragment of Go's `strings` helpers), Go maps with association
lists, Go `int` with `Int`, and 32-bit unsigned arithmetic with `Nat`
reduced modulo `2 ^ 32`.  Remote interactions of the cluster service are
modelled as a trace of issued calls over an abstract remote inventory.
-/

namespace GpuNow

/-- ASCII lower-case letter test (`a`-`z`). -/
def isLowerAlpha (c : Char) : Bool := 'a' ≤ c && c ≤ 'z'

/-- ASCII digit test (`0`-`9`). -/
def isDigitChar (c : Char) : Bool := '0' ≤ c && c ≤ '9'

/-- ASCII model of Go `unicode.IsSpace` for the characters that occur in
lifecycle state strings: space and the control characters 9-13. -/
def isSpaceChar (c : Char) : Bool := c.toNat == 32 || (9 ≤ c.toNat && c.toNat ≤ 13)

/-- ASCII model of Go `strings.ToUpper` on a single character. -/
def upChar (c : Char) : Char :=
  if isLowerAlpha c then Char.ofNat (c.toNat - 32) else c

/-- ASCII model of Go `strings.TrimSpace` on a character list. -/
def trimChars (l : List Char) : List Char :=
  ((l.dropWhile isSpaceChar).reverse.dropWhile isSpaceChar).reverse

/-- Embedding of `lifecycle.NormalizeInstanceState` (go/internal/lifecycle/state.go).
Every branch of the Go `switch` returns exactly the upper-cased, trimmed
input, so the function is `ToUpper ∘ TrimSpace`. -/
def normalizeInstanceState (s : String) : String :=
  String.mk ((trimChars s.data).map upChar)

/-- `lifecycle.InstanceStateTerminated`. -/
def instanceStateTerminated : String := "TERMINATED"

/-- `lifecycle.InstanceStateStarting`. -/
def instanceStateStarting : String := "STARTING"

/-- `lifecycle.InstanceStateProvisioning`. -/
def instanceStateProvisioning : String := "PROVISIONING"

/-- `lifecycle.InstanceStateReady`. -/
def instanceStateReady : String := "READY"

/-- `lifecycle.InstanceStateTerminating`. -/
def instanceStateTerminating : String := "TERMINATING"

/-- Decimal digit character, as produced by `fmt.Sprintf("%d", _)` for a
digit value `0 ≤ d ≤ 9` (the catch-all is never reached on `d % 10`). -/
def digitChar (d : Nat) : Char :=
  match d with
  | 0 => '0' | 1 => '1' | 2 => '2' | 3 => '3' | 4 => '4'
  | 5 => '5' | 6 => '6' | 7 => '7' | 8 => '8' | _ => '9'

/-- Fuel-driven decimal rendering, structurally recursive so that it
reduces inside `decide`.  With fuel ≥ n it renders `n` exactly as Go's
`%d` for non-negative values. -/
def decDigitsAux : Nat → Nat → List Char → List Char
  | 0, n, acc => digitChar (n % 10) :: acc
  | fuel + 1, n, acc =>
    if n < 10 then digitChar (n % 10) :: acc
    else decDigitsAux fuel (n / 10) (digitChar (n % 10) :: acc)

/-- Decimal digits of `n` (model of `fmt.Sprintf("%d", n)` for `n ≥ 0`). -/
def decDigits (n : Nat) : List Char := decDigitsAux n n []

/-- Instance name `fmt.Sprintf("%s-%d", clusterName, i)` shared by
`Service.instanceName` and `state.ensureClusterInstances`. -/
def instName (clusterName : String) (i : Nat) : String :=
  String.mk (clusterName.data ++ '-' :: decDigits i)

/-- Embedding of `validate.IsResourceName` (go/internal/validate/names.go):
the regular expression `[a-z]([a-z0-9-]\x7b0,61\x7d[a-z0-9])?` anchored at both
ends, decided directly on the character list. -/
def isNameMid (c : Char) : Bool := isLowerAlpha c || isDigitChar c || c == '-'

/-- Final-character class `[a-z0-9]` of the resource-name pattern. -/
def isNameEnd (c : Char) : Bool := isLowerAlpha c || isDigitChar c

/-- `validate.IsResourceName`. -/
def isResourceName (s : String) : Bool :=
  match s.data with
  | [] => false
  | c :: rest =>
    isLowerAlpha c &&
      (rest.isEmpty ||
        (decide (rest.length ≤ 62) && rest.dropLast.all isNameMid &&
          isNameEnd (rest.getLastD 'a')))

/-- Numeric value of a digit list (base 10), used to invert `decDigits`. -/
def valAcc (a : Nat) (l : List Char) : Nat :=
  l.foldl (fun x c => 10 * x + (c.toNat - 48)) a

theorem digitChar_toNat : ∀ d : Nat, d < 10 → (digitChar d).toNat = 48 + d := by
  decide

theorem decDigitsAux_acc (fuel : Nat) :
    ∀ n acc, n ≤ fuel → decDigitsAux fuel n acc = decDigitsAux fuel n [] ++ acc := by
  induction fuel with
  | zero => intro n acc _; simp [decDigitsAux]
  | succ fuel ih =>
    intro n acc hn
    by_cases h : n < 10
    · simp [decDigitsAux, h]
    · have hpos : 0 < n := by omega
      have hdiv : n / 10 ≤ fuel := by
        have := Nat.div_lt_self hpos (by norm_num : 1 < 10)
        omega
      simp only [decDigitsAux, if_neg h]
      rw [ih (n / 10) (digitChar (n % 10) :: acc) hdiv,
        ih (n / 10) [digitChar (n % 10)] hdiv]
      simp

theorem valAcc_append (a : Nat) (l₁ l₂ : List Char) :
    valAcc a (l₁ ++ l₂) = valAcc (valAcc a l₁) l₂ := by
  simp [valAcc, List.foldl_append]

theorem valAcc_decDigitsAux (fuel : Nat) :
    ∀ n a, n ≤ fuel →
      valAcc a (decDigitsAux fuel n []) =
        a * 10 ^ (decDigitsAux fuel n []).length + n := by
  induction fuel with
  | zero =>
    intro n a hn
    have : n = 0 := by omega
    subst this
    simp [decDigitsAux, valAcc, digitChar_toNat 0 (by norm_num)]
    omega
  | succ fuel ih =>
    intro n a hn
    by_cases h : n < 10
    · have hmod : n % 10 = n := Nat.mod_eq_of_lt h
      simp [decDigitsAux, h, valAcc, hmod, digitChar_toNat n h]
      omega
    · have hpos : 0 < n := by omega
      have hdiv : n / 10 ≤ fuel := by
        have := Nat.div_lt_self hpos (by norm_num : 1 < 10)
        omega
      have hsplit : decDigitsAux (fuel + 1) n [] =
          decDigitsAux fuel (n / 10) [] ++ [digitChar (n % 10)] := by
        simp only [decDigitsAux, if_neg h]
        exact decDigitsAux_acc fuel (n / 10) [digitChar (n % 10)] hdiv
      rw [hsplit, valAcc_append, ih (n / 10) a hdiv]
      have hd : (digitChar (n % 10)).toNat = 48 + n % 10 :=
        digitChar_toNat (n % 10) (Nat.mod_lt n (by norm_num))
      simp [valAcc, hd, List.length_append]
      have hnm : 10 * (n / 10) + n % 10 = n := Nat.div_add_mod n 10
      ring_nf
      omega

theorem valAcc_decDigits (n : Nat) :
    valAcc 0 (decDigits n) = n := by
  have := valAcc_decDigitsAux n n 0 (le_refl n)
  simpa [decDigits] using this

theorem decDigits_injective : Function.Injective decDigits := by
  intro m n h
  have hm := valAcc_decDigits m
  have hn := valAcc_decDigits n
  rw [h] at hm
  omega

theorem instName_injective (c : String) : Function.Injective (instName c) := by
  intro i j h
  have hdata : c.data ++ '-' :: decDigits i = c.data ++ '-' :: decDigits j := by
    have := congrArg String.data h
    simpa [instName] using this
  have := List.append_cancel_left hdata
  exact decDigits_injective (by simpa using this)

/-- FNV-1a 32-bit hash of a byte sequence, as computed by `hash/fnv`'s
`New32a` after writing the cluster name's bytes (`cluster.DeriveSubnetCIDR`
feeds `[]byte(clusterName)`). -/
def fnv1a32 (bytes : List Nat) : Nat :=
  bytes.foldl (fun h b => ((Nat.xor h (b % 256)) * 16777619) % 4294967296) 2166136261

/-- Embedding of `cluster.DeriveSubnetCIDR` (go/internal/cluster/subnet.go)
after `net.ParseCIDR` has succeeded on the base CIDR with an IPv4 address:
`base` is the big-endian 32-bit value of the parsed address, `basePfx` the
mask size, `pfx` the requested subnet prefix length, `nameBytes` the
cluster name's bytes.  Returns the derived subnet's base address and
prefix; the `uint32` addition is taken modulo `2 ^ 32` as in Go. -/
def deriveSubnetCIDR (base basePfx pfx : Nat) (nameBytes : List Nat) :
    Except String (Nat × Nat) :=
  if pfx < basePfx then
    .error "subnet prefix is smaller than base prefix"
  else if 30 < pfx then
    .error "subnet prefix must be <= 30"
  else
    let count := 2 ^ (pfx - basePfx)
    let index := fnv1a32 nameBytes % count
    let blockSize := 2 ^ (32 - pfx)
    .ok ((base + index * blockSize) % 4294967296, pfx)

/-- **C3.** For every valid input — an IPv4 base block (32-bit address
`base` aligned to its prefix length `basePfx`) and a target prefix
`basePfx ≤ pfx ≤ 30` — `DeriveSubnetCIDR` succeeds and returns exactly
the sub-block numbered `fnv1a32 name % 2 ^ (pfx - basePfx)` inside the
base block (hence the same sub-block on every call, the function being
pure), and the returned `/pfx` block is fully contained in the base
block: it starts at or after `base` and ends at or before the base
block's end. -/
theorem deriveSubnetCIDR_correct (base basePfx pfx : Nat) (nameBytes : List Nat)
    (hbase : base < 2 ^ 32) (halign : base % 2 ^ (32 - basePfx) = 0)
    (h1 : basePfx ≤ pfx) (h2 : pfx ≤ 30) :
    deriveSubnetCIDR base basePfx pfx nameBytes =
      .ok (base + (fnv1a32 nameBytes % 2 ^ (pfx - basePfx)) * 2 ^ (32 - pfx), pfx) ∧
    base ≤ base + (fnv1a32 nameBytes % 2 ^ (pfx - basePfx)) * 2 ^ (32 - pfx) ∧
    (base + (fnv1a32 nameBytes % 2 ^ (pfx - basePfx)) * 2 ^ (32 - pfx)) + 2 ^ (32 - pfx) ≤
      base + 2 ^ (32 - basePfx) := by
  have hA : 32 - basePfx = (32 - pfx) + (pfx - basePfx) := by omega
  set X := 2 ^ (32 - pfx) with hXdef
  set Y := 2 ^ (pfx - basePfx) with hYdef
  set Z := 2 ^ basePfx with hZdef
  set B := 2 ^ (32 - basePfx) with hBdef
  have hB : B = X * Y := by rw [hBdef, hXdef, hYdef, hA, pow_add]
  have h32 : (2 : Nat) ^ 32 = B * Z := by
    rw [hBdef, hZdef, ← pow_add]
    congr 1
    omega
  have hXpos : 0 < X := Nat.pos_pow_of_pos _ (by norm_num)
  have hYpos : 0 < Y := Nat.pos_pow_of_pos _ (by norm_num)
  have hidx : fnv1a32 nameBytes % Y < Y := Nat.mod_lt _ hYpos
  set index := fnv1a32 nameBytes % Y with hidxdef
  obtain ⟨q, hq⟩ := Nat.dvd_of_mod_eq_zero halign
  have hqlt : q < Z := by
    by_contra hge
    push_neg at hge
    have h1 : B * Z ≤ B * q := Nat.mul_le_mul_left _ hge
    rw [← h32] at h1
    rw [hq] at hbase
    omega
  have hoffset : index * X + X ≤ B := by
    have h1 : (index + 1) * X ≤ Y * X := Nat.mul_le_mul_right _ hidx
    calc index * X + X = (index + 1) * X := by ring
      _ ≤ Y * X := h1
      _ = B := by rw [hB]; ring
  have hqB : B * q + B ≤ B * Z := by
    have h1 : B * (q + 1) ≤ B * Z := Nat.mul_le_mul_left _ hqlt
    calc B * q + B = B * (q + 1) := by ring
      _ ≤ B * Z := h1
  have hnoow : base + index * X < 2 ^ 32 := by
    have h1 : index * X < B := by omega
    calc base + index * X < base + B := by omega
      _ = B * q + B := by rw [hq]
      _ ≤ B * Z := hqB
      _ = 2 ^ 32 := h32.symm
  refine ⟨?_, Nat.le_add_right _ _, by omega⟩
  simp only [deriveSubnetCIDR, if_neg (by omega : ¬ pfx < basePfx),
    if_neg (by omega : ¬ 30 < pfx)]
  rw [show (4294967296 : Nat) = 2 ^ 32 from by norm_num]
  rw [Nat.mod_eq_of_lt hnoow]

/-- Witness for `deriveSubnetCIDR_correct`: base block `10.200.0.0/16`
(address value `180879360`), target prefix `24`, cluster name
`my-cluster` (its UTF-8 bytes). -/
theorem deriveSubnetCIDR_correct_witness :
    (180879360 < 2 ^ 32 ∧ 180879360 % 2 ^ (32 - 16) = 0 ∧ 16 ≤ 24 ∧ 24 ≤ 30) ∧
    (deriveSubnetCIDR 180879360 16 24 [109, 121, 45, 99, 108, 117, 115, 116, 101, 114] =
      .ok (180879360 +
        (fnv1a32 [109, 121, 45, 99, 108, 117, 115, 116, 101, 114] % 2 ^ (24 - 16)) *
          2 ^ (32 - 24), 24) ∧
      180879360 ≤ 180879360 +
        (fnv1a32 [109, 121, 45, 99, 108, 117, 115, 116, 101, 114] % 2 ^ (24 - 16)) *
          2 ^ (32 - 24) ∧
      (180879360 +
        (fnv1a32 [109, 121, 45, 99, 108, 117, 115, 116, 101, 114] % 2 ^ (24 - 16)) *
          2 ^ (32 - 24)) + 2 ^ (32 - 24) ≤ 180879360 + 2 ^ (32 - 16)) :=
  ⟨⟨by norm_num, by norm_num, by norm_num, by norm_num⟩,
    deriveSubnetCIDR_correct 180879360 16 24 [109, 121, 45, 99, 108, 117, 115, 116, 101, 114]
      (by norm_num) (by norm_num) (by norm_num) (by norm_num)⟩

/-- Embedding of `state.ClusterInstance` (go/internal/state/store.go).
`index` is an `Int` because `parseInstanceIndex` returns `-1` on failure. -/
structure ClusterInstance where
  name : String
  index : Int
  state : String
  externalIP : String
  internalIP : String
  createdAt : String
  updatedAt : String
deriving DecidableEq, Repr

/-- A Go `map[string]*ClusterInstance` as an association list; a `none`
value models a stored nil pointer. -/
abbrev InstMap := List (String × Option ClusterInstance)

/-- Association-list lookup (Go map indexing for the key's raw value). -/
def lookupA {α : Type} (m : List (String × α)) (k : String) : Option α :=
  match m with
  | [] => none
  | p :: rest => if p.1 = k then some p.2 else lookupA rest k

/-- Go map indexing on a nilable-pointer map: a missing key and a stored
nil pointer both read as nil. -/
def lookupJoin {α : Type} (m : List (String × Option α)) (k : String) : Option α :=
  (lookupA m k).join

/-- Association-list update (Go map assignment): replaces the first
binding of the key, or appends a new binding. -/
def insertA {α : Type} (m : List (String × α)) (k : String) (v : α) :
    List (String × α) :=
  match m with
  | [] => [(k, v)]
  | p :: rest => if p.1 = k then (k, v) :: rest else p :: insertA rest k v

/-- Association-list key removal (Go `delete`). -/
def removeA {α : Type} (m : List (String × α)) (k : String) : List (String × α) :=
  match m with
  | [] => []
  | p :: rest => if p.1 = k then removeA rest k else p :: removeA rest k

/-- Loop accumulator of `state.deriveClusterState`. -/
structure DeriveAcc where
  terminatedCount : Nat
  readyCount : Nat
  hasStarting : Bool
  hasProvisioning : Bool
  hasTerminating : Bool
deriving DecidableEq, Repr

/-- One iteration of `deriveClusterState`'s loop over the instance map
(nil entries are skipped; the `switch` compares the normalized state). -/
def observeDerive (acc : DeriveAcc) (inst : Option ClusterInstance) : DeriveAcc :=
  match inst with
  | none => acc
  | some i =>
    if normalizeInstanceState i.state = instanceStateStarting then
      { acc with hasStarting := true }
    else if normalizeInstanceState i.state = instanceStateProvisioning then
      { acc with hasProvisioning := true }
    else if normalizeInstanceState i.state = instanceStateTerminating then
      { acc with hasTerminating := true }
    else if normalizeInstanceState i.state = instanceStateReady then
      { acc with readyCount := acc.readyCount + 1 }
    else if normalizeInstanceState i.state = instanceStateTerminated then
      { acc with terminatedCount := acc.terminatedCount + 1 }
    else acc

/-- The accumulator state after `deriveClusterState`'s loop. -/
def deriveAccOf (instances : InstMap) : DeriveAcc :=
  instances.foldl (fun a p => observeDerive a p.2) ⟨0, 0, false, false, false⟩

/-- Embedding of `state.deriveClusterState` (go/internal/state/store.go). -/
def deriveClusterState (instances : InstMap) (configuredCount : Int) : String :=
  if configuredCount ≤ 0 ∧ instances.length = 0 then instanceStateTerminated
  else if (deriveAccOf instances).hasTerminating then instanceStateTerminating
  else if (deriveAccOf instances).hasStarting then instanceStateStarting
  else if (deriveAccOf instances).hasProvisioning then instanceStateProvisioning
  else if (deriveAccOf instances).readyCount > 0 ∧
      (deriveAccOf instances).terminatedCount = 0 then instanceStateReady
  else if (deriveAccOf instances).readyCount > 0 then instanceStateStarting
  else instanceStateTerminated

/-- The five canonical lifecycle states of §3 of the design. -/
def canonicalStates : List String :=
  [instanceStateTerminated, instanceStateStarting, instanceStateProvisioning,
    instanceStateReady, instanceStateTerminating]

/-- A state string is canonical when it is one of the five lifecycle states. -/
def isCanonicalState (s : String) : Bool := canonicalStates.contains s

/-- The states of the non-nil records of an instance map. -/
def statesOf (instances : InstMap) : List String :=
  instances.filterMap (fun p => p.2.map (fun i => i.state))

/-- The aggregate-status reduction exactly as the specification words it:
strict priority terminating, starting, provisioning, then ready (pure or
mixed with terminated), else terminated. -/
def specAggregate (states : List String) : String :=
  if states.contains instanceStateTerminating then instanceStateTerminating
  else if states.contains instanceStateStarting then instanceStateStarting
  else if states.contains instanceStateProvisioning then instanceStateProvisioning
  else if states.contains instanceStateReady &&
      !states.contains instanceStateTerminated then instanceStateReady
  else if states.contains instanceStateReady then instanceStateStarting
  else instanceStateTerminated

/-- Normalized state read of one map entry. -/
def normJoined (p : String × Option ClusterInstance) : Option String :=
  p.2.map (fun i => normalizeInstanceState i.state)

/-- Number of map entries whose normalized state equals `C`. -/
def stateCountP (C : String) (l : InstMap) : Nat :=
  l.countP (fun p => decide (normJoined p = some C))

/-- Whether some map entry's normalized state equals `C`. -/
def stateAny (C : String) (l : InstMap) : Bool :=
  l.any (fun p => decide (normJoined p = some C))

theorem stateCountP_cons (C : String) (p : String × Option ClusterInstance)
    (t : InstMap) :
    stateCountP C (p :: t) =
      stateCountP C t + (if normJoined p = some C then 1 else 0) := by
  simp [stateCountP, List.countP_cons]

theorem stateAny_cons (C : String) (p : String × Option ClusterInstance)
    (t : InstMap) :
    stateAny C (p :: t) = (decide (normJoined p = some C) || stateAny C t) := by
  simp [stateAny, List.any_cons]

theorem derive_foldl (l : InstMap) : ∀ a : DeriveAcc,
    l.foldl (fun acc p => observeDerive acc p.2) a =
      ⟨a.terminatedCount + stateCountP instanceStateTerminated l,
        a.readyCount + stateCountP instanceStateReady l,
        a.hasStarting || stateAny instanceStateStarting l,
        a.hasProvisioning || stateAny instanceStateProvisioning l,
        a.hasTerminating || stateAny instanceStateTerminating l⟩ := by
  induction l with
  | nil => intro a; simp [stateCountP, stateAny]
  | cons p t ih =>
    intro a
    obtain ⟨k, op⟩ := p
    rw [List.foldl_cons, ih (observeDerive a (k, op).2)]
    rw [stateCountP_cons, stateCountP_cons, stateAny_cons, stateAny_cons, stateAny_cons]
    match hp : op with
    | none =>
      simp [observeDerive, normJoined]
    | some i =>
      have hnj : normJoined (k, some i) = some (normalizeInstanceState i.state) := by
        simp [normJoined]
      by_cases h1 : normalizeInstanceState i.state = instanceStateStarting
      · simp [observeDerive, hnj, h1, instanceStateStarting, instanceStateProvisioning,
          instanceStateTerminating, instanceStateReady, instanceStateTerminated,
          Bool.or_assoc]
      · by_cases h2 : normalizeInstanceState i.state = instanceStateProvisioning
        · simp [observeDerive, hnj, h1, h2, instanceStateStarting, instanceStateProvisioning,
            instanceStateTerminating, instanceStateReady, instanceStateTerminated,
            Bool.or_assoc]
        · by_cases h3 : normalizeInstanceState i.state = instanceStateTerminating
          · simp [observeDerive, hnj, h1, h2, h3, instanceStateStarting,
              instanceStateProvisioning, instanceStateTerminating, instanceStateReady,
              instanceStateTerminated, Bool.or_assoc]
          · by_cases h4 : normalizeInstanceState i.state = instanceStateReady
            · simp [observeDerive, hnj, h1, h2, h3, h4, instanceStateStarting,
                instanceStateProvisioning, instanceStateTerminating, instanceStateReady,
                instanceStateTerminated, Bool.or_assoc]
              omega
            · by_cases h5 : normalizeInstanceState i.state = instanceStateTerminated
              · simp [observeDerive, hnj, h1, h2, h3, h4, h5, instanceStateStarting,
                  instanceStateProvisioning, instanceStateTerminating, instanceStateReady,
                  instanceStateTerminated, Bool.or_assoc]
                omega
              · simp [observeDerive, hnj, h1, h2, h3, h4, h5, Bool.or_assoc]

theorem norm_canonical {s : String} (h : isCanonicalState s = true) :
    normalizeInstanceState s = s := by
  have hmem : s ∈ canonicalStates := by
    simpa [isCanonicalState] using h
  simp only [canonicalStates, List.mem_cons, List.not_mem_nil, or_false] at hmem
  rcases hmem with h | h | h | h | h <;> subst h <;> decide

theorem deriveAccOf_eq (l : InstMap) :
    deriveAccOf l =
      ⟨stateCountP instanceStateTerminated l, stateCountP instanceStateReady l,
        stateAny instanceStateStarting l, stateAny instanceStateProvisioning l,
        stateAny instanceStateTerminating l⟩ := by
  rw [deriveAccOf, derive_foldl]
  simp

theorem stateCountP_pos_iff (C : String) (l : InstMap) :
    0 < stateCountP C l ↔ stateAny C l = true := by
  simp [stateCountP, stateAny, List.countP_pos_iff, List.any_eq_true]

theorem stateCountP_zero_iff (C : String) (l : InstMap) :
    stateCountP C l = 0 ↔ stateAny C l = false := by
  simp [stateCountP, stateAny, List.countP_eq_zero, List.any_eq_false]

theorem beq_comm_decide (a b : String) : (a == b) = decide (b = a) := by
  by_cases h : b = a
  · subst h; simp
  · have h2 : ¬ a = b := fun hh => h hh.symm
    simp [h, h2]

theorem statesOf_contains :
    ∀ l : InstMap,
      (∀ p ∈ l, (p.2.all fun i => isCanonicalState i.state) = true) →
      ∀ C : String, (statesOf l).contains C = stateAny C l := by
  intro l
  induction l with
  | nil => intro _ C; rfl
  | cons p t ih =>
    intro hcanon C
    have hsub : ∀ q ∈ t, (q.2.all fun i => isCanonicalState i.state) = true :=
      fun q hq => hcanon q (List.mem_cons_of_mem _ hq)
    obtain ⟨k, op⟩ := p
    match hop : op with
    | none =>
      have hs : statesOf ((k, none) :: t) = statesOf t := by
        simp [statesOf]
      have hnj : normJoined (k, none) = none := rfl
      rw [hs, stateAny_cons, ih hsub C, hnj]
      simp
    | some i =>
      have hcs : isCanonicalState i.state = true := by
        have := hcanon (k, some i) (List.mem_cons_self _ _)
        simpa [Option.all] using this
      have hni : normalizeInstanceState i.state = i.state := norm_canonical hcs
      have hs : statesOf ((k, some i) :: t) = i.state :: statesOf t := by
        simp [statesOf]
      have hnj : normJoined (k, some i) = some i.state := by
        simp [normJoined, hni]
      rw [hs, stateAny_cons, hnj]
      simp only [List.contains_cons, ih hsub C, beq_comm_decide, Option.some.injEq]

theorem deriveClusterState_eq_spec (l : InstMap) (count : Int)
    (hcanon : ∀ p ∈ l, (p.2.all fun i => isCanonicalState i.state) = true) :
    deriveClusterState l count = specAggregate (statesOf l) := by
  by_cases h0 : count ≤ 0 ∧ l.length = 0
  · have hl : l = [] := List.length_eq_zero.mp h0.2
    subst hl
    simp [deriveClusterState, h0, specAggregate, statesOf]
  · have hbr := statesOf_contains l hcanon
    simp only [deriveClusterState, if_neg h0, deriveAccOf_eq, specAggregate,
      hbr instanceStateTerminating, hbr instanceStateStarting,
      hbr instanceStateProvisioning, hbr instanceStateReady,
      hbr instanceStateTerminated]
    by_cases hTg : stateAny instanceStateTerminating l = true
    · simp [hTg]
    · rw [Bool.not_eq_true] at hTg
      by_cases hS : stateAny instanceStateStarting l = true
      · simp [hTg, hS]
      · rw [Bool.not_eq_true] at hS
        by_cases hP : stateAny instanceStateProvisioning l = true
        · simp [hTg, hS, hP]
        · rw [Bool.not_eq_true] at hP
          by_cases hR : stateAny instanceStateReady l = true
          · by_cases hT : stateAny instanceStateTerminated l = true
            · have hrpos : 0 < stateCountP instanceStateReady l :=
                (stateCountP_pos_iff _ _).mpr hR
              have htpos : ¬ stateCountP instanceStateTerminated l = 0 := by
                intro hz
                rw [(stateCountP_zero_iff _ _).mp hz] at hT
                exact Bool.false_ne_true hT
              simp [hTg, hS, hP, hR, hT, hrpos, htpos]
            · rw [Bool.not_eq_true] at hT
              have hrpos : 0 < stateCountP instanceStateReady l :=
                (stateCountP_pos_iff _ _).mpr hR
              have htz : stateCountP instanceStateTerminated l = 0 :=
                (stateCountP_zero_iff _ _).mpr hT
              simp [hTg, hS, hP, hR, hT, hrpos, htz]
          · rw [Bool.not_eq_true] at hR
            have hrz : stateCountP instanceStateReady l = 0 :=
              (stateCountP_zero_iff _ _).mpr hR
            simp [hTg, hS, hP, hR, hrz]

/-- Instance map with states `states`, one record per index, as the store
would key them for cluster `x`. -/
def mkInsts (states : List String) : InstMap :=
  ((List.range states.length).zip states).map
    (fun p => (instName "x" p.1,
      some ⟨instName "x" p.1, (p.1 : Int), p.2, "", "", "t0", "t0"⟩))

/-- **C2.** The derived cluster aggregate status is exactly the
specification's strict-priority reduction over the instances' states
(for canonical state values), a cluster with a positive configured count
and zero recorded instances is terminated, and the four example state
sets reduce to starting, ready, terminated and terminating respectively. -/
theorem clusterAggregateStatus_spec :
    (∀ (instances : InstMap) (count : Int),
      (∀ p ∈ instances, (p.2.all fun i => isCanonicalState i.state) = true) →
      deriveClusterState instances count = specAggregate (statesOf instances)) ∧
    (∀ count : Int, 0 < count → deriveClusterState [] count = instanceStateTerminated) ∧
    deriveClusterState (mkInsts ["READY", "READY", "TERMINATED"]) 3 = instanceStateStarting ∧
    deriveClusterState (mkInsts ["READY", "READY", "READY"]) 3 = instanceStateReady ∧
    deriveClusterState (mkInsts ["TERMINATED", "TERMINATED"]) 2 = instanceStateTerminated ∧
    deriveClusterState (mkInsts ["TERMINATING", "READY"]) 2 = instanceStateTerminating := by
  refine ⟨fun instances count h => deriveClusterState_eq_spec instances count h,
    fun count hc => ?_, by decide, by decide, by decide, by decide⟩
  have hnc : ¬ (count ≤ 0 ∧ ([] : InstMap).length = 0) := by
    intro h
    omega
  simp [deriveClusterState, hnc, deriveAccOf, stateCountP, stateAny]

/-- Witness for `clusterAggregateStatus_spec`: the general reduction
instantiated on a concrete two-instance map. -/
theorem clusterAggregateStatus_spec_witness :
    (∀ p ∈ mkInsts ["READY", "TERMINATED"],
      (p.2.all fun i => isCanonicalState i.state) = true) ∧
    deriveClusterState (mkInsts ["READY", "TERMINATED"]) 2 =
      specAggregate (statesOf (mkInsts ["READY", "TERMINATED"])) :=
  ⟨by decide, clusterAggregateStatus_spec.1 (mkInsts ["READY", "TERMINATED"]) 2 (by decide)⟩

/-- Embedding of `state.ClusterConfig` (go/internal/state/store.go). -/
structure ClusterConfig where
  gcpMachineType : String
  gcpMaxRunHours : Int
  gcpTerminationAction : String
  gcpDiskSizeGB : Int
  keepDisks : Bool
deriving DecidableEq, Repr

/-- The zero value of `ClusterConfig`. -/
def ClusterConfig.zero : ClusterConfig := ⟨"", 0, "", 0, false⟩

/-- Embedding of `state.Cluster` (go/internal/state/store.go).  The
`instances` field is `none` when the Go map is nil. -/
structure Cluster where
  name : String
  profile : String
  numInstances : Int
  config : ClusterConfig
  instances : Option InstMap
  status : String
  createdAt : String
  updatedAt : String
  lastAction : String
  lastActionAt : String
  deletedAt : String
deriving DecidableEq, Repr

/-- `&Cluster\x7bName: name\x7d`: a fresh record with only the name set. -/
def Cluster.fresh (name : String) : Cluster :=
  ⟨name, "", 0, ClusterConfig.zero, none, "", "", "", "", "", ""⟩

/-- Embedding of `state.VM` (go/internal/state/store.go). -/
structure VMRec where
  name : String
  profile : String
  status : String
  createdAt : String
  updatedAt : String
  lastAction : String
  lastActionAt : String
  deletedAt : String
deriving DecidableEq, Repr

/-- Embedding of `state.Data` (go/internal/state/store.go): the persisted
document.  `none` maps model nil Go maps; `none` entry values model
stored nil pointers. -/
structure Data where
  version : Int
  updatedAt : String
  clusters : Option (List (String × Option Cluster))
  vms : Option (List (String × Option VMRec))
deriving DecidableEq, Repr

/-- One iteration of the `ensureClusterInstances` loop
(go/internal/state/store.go): create the entry for index `i` if it is
missing or nil, otherwise default its empty fields and set its index. -/
def ensureInstanceEntry (clusterName : String) (m : InstMap) (i : Nat) (ts : String) :
    InstMap :=
  match lookupJoin m (instName clusterName i) with
  | none =>
    insertA m (instName clusterName i)
      (some ⟨instName clusterName i, (i : Int), instanceStateTerminated, "", "", ts, ts⟩)
  | some e =>
    insertA m (instName clusterName i)
      (some { e with
        name := if e.name = "" then instName clusterName i else e.name,
        index := (i : Int),
        state := if e.state = "" then instanceStateTerminated else e.state,
        createdAt := if e.createdAt = "" then ts else e.createdAt,
        updatedAt := if e.updatedAt = "" then ts else e.updatedAt })

/-- The `for i := 0; i < numInstances; i++` loop of
`ensureClusterInstances`, iterated up to `j`. -/
def ensureLoop (clusterName : String) (ts : String) (m : InstMap) (j : Nat) : InstMap :=
  (List.range j).foldl (fun acc i => ensureInstanceEntry clusterName acc i ts) m

/-- Embedding of `state.ensureClusterInstances` (go/internal/state/store.go). -/
def ensureClusterInstances (clusterName : String) (existing : Option InstMap)
    (numInstances : Int) (ts : String) : InstMap :=
  if numInstances ≤ 0 then existing.getD []
  else ensureLoop clusterName ts (existing.getD []) numInstances.toNat

theorem lookupA_insertA_self {α : Type} (m : List (String × α)) (k : String) (v : α) :
    lookupA (insertA m k v) k = some v := by
  induction m with
  | nil => simp [insertA, lookupA]
  | cons p rest ih =>
    by_cases h : p.1 = k
    · simp [insertA, h, lookupA]
    · simp [insertA, h, lookupA, ih]

theorem lookupA_insertA_other {α : Type} (m : List (String × α)) (k k' : String) (v : α)
    (h : k' ≠ k) : lookupA (insertA m k v) k' = lookupA m k' := by
  have h' : ¬ k = k' := fun hh => h hh.symm
  induction m with
  | nil => simp [insertA, lookupA, h']
  | cons p rest ih =>
    by_cases hp : p.1 = k
    · subst hp
      simp [insertA, lookupA, h']
    · simp only [insertA, if_neg hp, lookupA]
      by_cases hp' : p.1 = k'
      · simp [hp']
      · simp [hp', ih]

theorem ensureInstanceEntry_other (clusterName : String) (m : InstMap) (i : Nat)
    (ts : String) (k : String) (h : k ≠ instName clusterName i) :
    lookupA (ensureInstanceEntry clusterName m i ts) k = lookupA m k := by
  rw [ensureInstanceEntry]
  match lookupJoin m (instName clusterName i) with
  | none => exact lookupA_insertA_other m _ k _ h
  | some e => exact lookupA_insertA_other m _ k _ h

theorem ensureLoop_succ (clusterName ts : String) (m : InstMap) (j : Nat) :
    ensureLoop clusterName ts m (j + 1) =
      ensureInstanceEntry clusterName (ensureLoop clusterName ts m j) j ts := by
  rw [ensureLoop, List.range_succ, List.foldl_append]
  rfl

theorem ensureLoop_other (clusterName ts : String) (m : InstMap) (j : Nat) (k : String)
    (h : ∀ i, i < j → k ≠ instName clusterName i) :
    lookupA (ensureLoop clusterName ts m j) k = lookupA m k := by
  induction j with
  | zero => rfl
  | succ j ih =>
    rw [ensureLoop_succ,
      ensureInstanceEntry_other clusterName _ j ts k (h j (Nat.lt_succ_self j)),
      ih (fun i hi => h i (Nat.lt_succ_of_lt hi))]

theorem ensureLoop_target (clusterName ts : String) (m : InstMap) (j : Nat)
    (hcoh : ∀ k v, lookupJoin m k = some v → v.name = "" ∨ v.name = k) :
    ∀ i, i < j →
      ∃ v, lookupJoin (ensureLoop clusterName ts m j) (instName clusterName i) = some v ∧
        v.name = instName clusterName i ∧ v.index = (i : Int) := by
  induction j with
  | zero => intro i hi; omega
  | succ j ih =>
    intro i hi
    rcases Nat.lt_succ_iff_lt_or_eq.mp hi with hlt | heq
    · obtain ⟨v, hv, hvn, hvi⟩ := ih i hlt
      refine ⟨v, ?_, hvn, hvi⟩
      rw [ensureLoop_succ]
      have hne : instName clusterName i ≠ instName clusterName j := by
        intro hcontra
        exact absurd (instName_injective clusterName hcontra) (by omega)
      rw [lookupJoin, ensureInstanceEntry_other clusterName _ j ts _ hne]
      exact hv
    · subst heq
      have huntouched :
          lookupA (ensureLoop clusterName ts m i) (instName clusterName i) =
            lookupA m (instName clusterName i) := by
        apply ensureLoop_other
        intro i' hi' hcontra
        exact absurd (instName_injective clusterName hcontra) (by omega)
      have hjoin :
          lookupJoin (ensureLoop clusterName ts m i) (instName clusterName i) =
            lookupJoin m (instName clusterName i) := by
        rw [lookupJoin, huntouched, lookupJoin]
      rw [ensureLoop_succ]
      cases hm : lookupJoin m (instName clusterName i) with
      | none =>
        have hstep : ensureInstanceEntry clusterName (ensureLoop clusterName ts m i) i ts =
            insertA (ensureLoop clusterName ts m i) (instName clusterName i)
              (some ⟨instName clusterName i, (i : Int), instanceStateTerminated, "", "", ts, ts⟩) := by
          simp only [ensureInstanceEntry, hjoin, hm]
        rw [hstep, lookupJoin, lookupA_insertA_self]
        exact ⟨_, rfl, rfl, rfl⟩
      | some e =>
        have hstep : ensureInstanceEntry clusterName (ensureLoop clusterName ts m i) i ts =
            insertA (ensureLoop clusterName ts m i) (instName clusterName i)
              (some { e with
                name := if e.name = "" then instName clusterName i else e.name,
                index := (i : Int),
                state := if e.state = "" then instanceStateTerminated else e.state,
                createdAt := if e.createdAt = "" then ts else e.createdAt,
                updatedAt := if e.updatedAt = "" then ts else e.updatedAt }) := by
          simp only [ensureInstanceEntry, hjoin, hm]
        rw [hstep, lookupJoin, lookupA_insertA_self]
        refine ⟨_, rfl, ?_, rfl⟩
        rcases hcoh _ _ hm with h | h
        · simp [h]
        · by_cases he : e.name = ""
          · simp [he]
          · simp only [if_neg he]
            exact h

theorem ensureLoop_preserve (clusterName ts : String) (m : InstMap) (j : Nat) :
    ∀ k v, lookupJoin m k = some v →
      ∃ v', lookupJoin (ensureLoop clusterName ts m j) k = some v' ∧
        (v.state ≠ "" → v'.state = v.state) ∧
        (v.createdAt ≠ "" → v'.createdAt = v.createdAt) ∧
        (v.updatedAt ≠ "" → v'.updatedAt = v.updatedAt) := by
  induction j with
  | zero => intro k v hv; exact ⟨v, hv, fun _ => rfl, fun _ => rfl, fun _ => rfl⟩
  | succ j ih =>
    intro k v hv
    by_cases hk : k = instName clusterName j
    · subst hk
      have huntouched :
          lookupA (ensureLoop clusterName ts m j) (instName clusterName j) =
            lookupA m (instName clusterName j) := by
        apply ensureLoop_other
        intro i' hi' hcontra
        exact absurd (instName_injective clusterName hcontra) (by omega)
      have hjoin :
          lookupJoin (ensureLoop clusterName ts m j) (instName clusterName j) =
            some v := by
        rw [lookupJoin, huntouched]
        exact hv
      have hstep : ensureInstanceEntry clusterName (ensureLoop clusterName ts m j) j ts =
          insertA (ensureLoop clusterName ts m j) (instName clusterName j)
            (some { v with
              name := if v.name = "" then instName clusterName j else v.name,
              index := (j : Int),
              state := if v.state = "" then instanceStateTerminated else v.state,
              createdAt := if v.createdAt = "" then ts else v.createdAt,
              updatedAt := if v.updatedAt = "" then ts else v.updatedAt }) := by
        simp only [ensureInstanceEntry, hjoin]
      rw [ensureLoop_succ, hstep, lookupJoin, lookupA_insertA_self]
      refine ⟨_, rfl, ?_, ?_, ?_⟩
      · intro hs; simp [hs]
      · intro hs; simp [hs]
      · intro hs; simp [hs]
    · obtain ⟨v', hv', hp⟩ := ih k v hv
      refine ⟨v', ?_, hp⟩
      rw [ensureLoop_succ, lookupJoin,
        ensureInstanceEntry_other clusterName _ j ts k hk]
      exact hv'

theorem ensureLoop_new (clusterName ts : String) (m : InstMap) (j : Nat) :
    ∀ k v', lookupJoin m k = none →
      lookupJoin (ensureLoop clusterName ts m j) k = some v' →
      v'.state = instanceStateTerminated := by
  induction j with
  | zero =>
    intro k v' hnone hsome
    rw [show ensureLoop clusterName ts m 0 = m from rfl, hnone] at hsome
    exact absurd hsome (by simp)
  | succ j ih =>
    intro k v' hnone hsome
    by_cases hk : k = instName clusterName j
    · subst hk
      have huntouched :
          lookupA (ensureLoop clusterName ts m j) (instName clusterName j) =
            lookupA m (instName clusterName j) := by
        apply ensureLoop_other
        intro i' hi' hcontra
        exact absurd (instName_injective clusterName hcontra) (by omega)
      have hjoin :
          lookupJoin (ensureLoop clusterName ts m j) (instName clusterName j) = none := by
        rw [lookupJoin, huntouched]
        exact hnone
      have hstep : ensureInstanceEntry clusterName (ensureLoop clusterName ts m j) j ts =
          insertA (ensureLoop clusterName ts m j) (instName clusterName j)
            (some ⟨instName clusterName j, (j : Int), instanceStateTerminated, "", "", ts, ts⟩) := by
        simp only [ensureInstanceEntry, hjoin]
      rw [ensureLoop_succ, hstep, lookupJoin, lookupA_insertA_self] at hsome
      have : v' = ⟨instName clusterName j, (j : Int), instanceStateTerminated, "", "", ts, ts⟩ := by
        simpa using hsome.symm
      rw [this]
    · rw [ensureLoop_succ, lookupJoin,
        ensureInstanceEntry_other clusterName _ j ts k hk] at hsome
      exact ih k v' hnone hsome

/-- Go `entry := data.Clusters[name]; if entry == nil \x7b entry = &Cluster\x7bName: name\x7d \x7d`. -/
def getOrCreateCluster (clusters : List (String × Option Cluster)) (name : String) :
    Cluster :=
  match lookupJoin clusters name with
  | some e => e
  | none => Cluster.fresh name

/-- Shared body of `Store.RecordClusterCreate` and `Store.RecordClusterStart`
(go/internal/state/store.go): the two functions are identical except for
the recorded action literal.  Refreshes the cluster entry's fields,
ensures its instance records and recomputes the derived status. -/
def refreshClusterEntry (entry : Cluster) (clusterName profile : String)
    (numInstances : Int) (cfg : ClusterConfig) (ts action : String) : Cluster :=
  let entry1 := { entry with
    createdAt := if entry.createdAt = "" then ts else entry.createdAt
    updatedAt := ts
    profile := profile
    numInstances := numInstances
    config := cfg }
  let insts := ensureClusterInstances clusterName entry1.instances numInstances ts
  { entry1 with
    instances := some insts
    status := deriveClusterState insts numInstances
    lastAction := action
    lastActionAt := ts
    deletedAt := "" }

/-- Embedding of the in-memory mutation of `Store.RecordClusterCreate`
(the surrounding `load`/`save` are modelled by `loadData`/`saveData`). -/
def recordClusterCreate (data : Data) (name profile : String) (numInstances : Int)
    (cfg : ClusterConfig) (ts : String) : Data :=
  { data with
    clusters := some (insertA (data.clusters.getD []) name
      (some (refreshClusterEntry (getOrCreateCluster (data.clusters.getD []) name)
        name profile numInstances cfg ts "create"))),
    updatedAt := ts }

/-- Embedding of the in-memory mutation of `Store.RecordClusterStart`. -/
def recordClusterStart (data : Data) (name profile : String) (numInstances : Int)
    (cfg : ClusterConfig) (ts : String) : Data :=
  { data with
    clusters := some (insertA (data.clusters.getD []) name
      (some (refreshClusterEntry (getOrCreateCluster (data.clusters.getD []) name)
        name profile numInstances cfg ts "start"))),
    updatedAt := ts }

/-- Per-instance mutation of `Store.RecordClusterStop` with `deleted=false`:
state forced to terminated, addresses cleared, update time stamped. -/
def termInstance (ts : String) (i : ClusterInstance) : ClusterInstance :=
  { i with
    state := instanceStateTerminated
    externalIP := ""
    internalIP := ""
    updatedAt := ts }

/-- The `deleted` branch of `Store.RecordClusterStop`: mark the record
deleted with a timestamp. -/
def deletedClusterEntry (entry : Cluster) (ts : String) : Cluster :=
  { entry with
    updatedAt := ts
    status := "deleted"
    deletedAt := ts
    lastAction := "delete"
    lastActionAt := ts }

/-- The non-`deleted` branch of `Store.RecordClusterStop`: every recorded
instance is forced to terminated with cleared addresses and the derived
status is recomputed over the mutated map. -/
def stopClusterEntry (entry : Cluster) (ts : String) : Cluster :=
  let newInsts := entry.instances.map
    (fun m => m.map (fun p => (p.1, p.2.map (termInstance ts))))
  { entry with
    updatedAt := ts
    instances := newInsts
    status := deriveClusterState (newInsts.getD []) entry.numInstances
    lastAction := "stop"
    lastActionAt := ts }

/-- Embedding of the in-memory mutation of `Store.RecordClusterStop`
(go/internal/state/store.go). -/
def recordClusterStop (data : Data) (name : String) (deleted : Bool) (ts : String) :
    Data :=
  { data with
    clusters := some (insertA (data.clusters.getD []) name
      (some (if deleted then
        deletedClusterEntry (getOrCreateCluster (data.clusters.getD []) name) ts
      else
        stopClusterEntry (getOrCreateCluster (data.clusters.getD []) name) ts)))
    updatedAt := ts }

/-- Embedding of the in-memory mutation of `Store.DeleteCluster`
(go/internal/state/store.go): the entry is removed outright. -/
def deleteCluster (data : Data) (name : String) (ts : String) : Data :=
  { data with clusters := data.clusters.map (fun m => removeA m name), updatedAt := ts }

theorem lookupA_removeA {α : Type} (m : List (String × α)) (k : String) :
    lookupA (removeA m k) k = none := by
  induction m with
  | nil => rfl
  | cons p rest ih =>
    by_cases hp : p.1 = k
    · simpa [removeA, hp] using ih
    · simp [removeA, hp, lookupA, ih]

/-- `normalizeInstanceState` is the identity on `TERMINATED`. -/
theorem norm_terminated :
    normalizeInstanceState instanceStateTerminated = instanceStateTerminated := by
  decide

theorem stateAny_all_terminated (m : InstMap)
    (h : ∀ q ∈ m, ∀ i, q.2 = some i → i.state = instanceStateTerminated)
    (C : String) (hC : C ≠ instanceStateTerminated) : stateAny C m = false := by
  rw [stateAny, List.any_eq_false]
  intro p hp
  simp only [decide_eq_true_eq]
  intro hcontra
  match hp2 : p.2 with
  | none =>
    rw [normJoined, hp2] at hcontra
    simp at hcontra
  | some i =>
    have hv := h p hp i hp2
    rw [normJoined, hp2] at hcontra
    simp only [Option.map_some', Option.some.injEq] at hcontra
    rw [hv, norm_terminated] at hcontra
    exact hC hcontra.symm

theorem derive_all_terminated (m : InstMap) (cnt : Int)
    (h : ∀ q ∈ m, ∀ i, q.2 = some i → i.state = instanceStateTerminated) :
    deriveClusterState m cnt = instanceStateTerminated := by
  by_cases h0 : cnt ≤ 0 ∧ m.length = 0
  · rw [deriveClusterState, if_pos h0]
  · have hTg : stateAny instanceStateTerminating m = false :=
      stateAny_all_terminated m h _ (by decide)
    have hS : stateAny instanceStateStarting m = false :=
      stateAny_all_terminated m h _ (by decide)
    have hP : stateAny instanceStateProvisioning m = false :=
      stateAny_all_terminated m h _ (by decide)
    have hR : stateAny instanceStateReady m = false :=
      stateAny_all_terminated m h _ (by decide)
    have hrz : stateCountP instanceStateReady m = 0 :=
      (stateCountP_zero_iff _ _).mpr hR
    simp [deriveClusterState, h0, deriveAccOf_eq, hTg, hS, hP, hrz]

/-- **C8.** `DeleteCluster` removes the named entry outright, whereas
`RecordClusterStop` with `deleted=false` keeps the record: afterwards the
cluster is still present, its instance keys are unchanged, every recorded
instance is terminated with cleared external/internal addresses, and its
status is the recomputed derived aggregate (terminated). -/
theorem deleteCluster_vs_recordClusterStop :
    ∀ (data : Data) (name ts : String) (entry : Cluster),
    lookupJoin (data.clusters.getD []) name = some entry →
    lookupJoin ((deleteCluster data name ts).clusters.getD []) name = none ∧
    ∃ e, lookupJoin ((recordClusterStop data name false ts).clusters.getD []) name = some e ∧
      e.numInstances = entry.numInstances ∧
      (e.instances.getD []).map Prod.fst = (entry.instances.getD []).map Prod.fst ∧
      (∀ q ∈ e.instances.getD [], ∀ i, q.2 = some i →
        i.state = instanceStateTerminated ∧ i.externalIP = "" ∧ i.internalIP = "") ∧
      e.status = deriveClusterState (e.instances.getD []) e.numInstances ∧
      e.status = instanceStateTerminated := by
  intro data name ts entry hentry
  have hg : getOrCreateCluster (data.clusters.getD []) name = entry := by
    unfold getOrCreateCluster
    rw [hentry]
  constructor
  · have hck : (deleteCluster data name ts).clusters =
        data.clusters.map (fun m => removeA m name) := rfl
    rw [hck]
    match hm : data.clusters with
    | none =>
      rw [hm] at hentry
      simp [lookupJoin, lookupA] at hentry
    | some m =>
      simp only [Option.map_some', Option.getD_some]
      rw [lookupJoin, lookupA_removeA]
      rfl
  · have hterm : ∀ q ∈ (stopClusterEntry entry ts).instances.getD [], ∀ i, q.2 = some i →
        i.state = instanceStateTerminated ∧ i.externalIP = "" ∧ i.internalIP = "" := by
      intro q hq i hqi
      match hmi : entry.instances with
      | none =>
        rw [show (stopClusterEntry entry ts).instances =
            entry.instances.map (fun m => m.map (fun p => (p.1, p.2.map (termInstance ts))))
          from rfl, hmi] at hq
        simp at hq
      | some m0 =>
        rw [show (stopClusterEntry entry ts).instances =
            entry.instances.map (fun m => m.map (fun p => (p.1, p.2.map (termInstance ts))))
          from rfl, hmi] at hq
        simp only [Option.map_some', Option.getD_some, List.mem_map] at hq
        obtain ⟨p0, _, hp0⟩ := hq
        rw [← hp0] at hqi
        simp only at hqi
        match hp02 : p0.2 with
        | none => rw [hp02] at hqi; simp at hqi
        | some i0 =>
          rw [hp02] at hqi
          simp only [Option.map_some', Option.some.injEq] at hqi
          rw [← hqi]
          exact ⟨rfl, rfl, rfl⟩
    refine ⟨stopClusterEntry entry ts, ?_, rfl, ?_, hterm, rfl, ?_⟩
    · rw [show (recordClusterStop data name false ts).clusters.getD [] =
          insertA (data.clusters.getD []) name
            (some (stopClusterEntry (getOrCreateCluster (data.clusters.getD []) name) ts))
        from rfl, hg, lookupJoin, lookupA_insertA_self]
      rfl
    · rw [show (stopClusterEntry entry ts).instances =
          entry.instances.map (fun m => m.map (fun p => (p.1, p.2.map (termInstance ts))))
        from rfl]
      match hmi : entry.instances with
      | none => rfl
      | some m0 => simp
    · rw [show (stopClusterEntry entry ts).status =
          deriveClusterState ((stopClusterEntry entry ts).instances.getD [])
            (stopClusterEntry entry ts).numInstances from rfl]
      exact derive_all_terminated _ _ (fun q hq i hqi => (hterm q hq i hqi).1)

/-- A concrete one-cluster, one-instance store document. -/
def sampleCluster : Cluster :=
  { name := "c", profile := "default", numInstances := 1
    config := ClusterConfig.zero
    instances := some [("c-0",
      some { name := "c-0", index := 0, state := "READY", externalIP := "1.2.3.4",
             internalIP := "10.0.0.2", createdAt := "t0", updatedAt := "t0" })]
    status := "READY", createdAt := "t0", updatedAt := "t0"
    lastAction := "start", lastActionAt := "t0", deletedAt := "" }

/-- A document holding only `sampleCluster`. -/
def sampleDoc : Data :=
  { version := 3, updatedAt := "", clusters := some [("c", some sampleCluster)]
    vms := some [] }

/-- Witness for `deleteCluster_vs_recordClusterStop` on `sampleDoc`. -/
theorem deleteCluster_vs_recordClusterStop_witness :
    lookupJoin (sampleDoc.clusters.getD []) "c" = some sampleCluster ∧
    lookupJoin ((deleteCluster sampleDoc "c" "t1").clusters.getD []) "c" = none :=
  ⟨by decide,
    (deleteCluster_vs_recordClusterStop sampleDoc "c" "t1" sampleCluster (by decide)).1⟩

/-- The empty (freshly initialized) store document. -/
def emptyDoc : Data := { version := 3, updatedAt := "", clusters := some [], vms := some [] }

/-- **C10.** After `RecordClusterCreate` or `RecordClusterStart` with
instance count `n > 0`, the cluster's instance map holds, for every
index `i < n`, an entry keyed and named `<cluster>-<i>` with index `i`
(given the store invariant that stored instance names match their keys);
entries already present are never removed and their non-empty state and
timestamps are preserved; newly created entries start terminated. -/
theorem recordCluster_ensure_invariant :
    ∀ (data : Data) (name profile : String) (n : Int) (cfg : ClusterConfig) (ts : String),
    0 < n →
    (∀ k v, lookupJoin
        ((getOrCreateCluster (data.clusters.getD []) name).instances.getD []) k = some v →
        v.name = "" ∨ v.name = k) →
    ∀ d ∈ [recordClusterCreate data name profile n cfg ts,
        recordClusterStart data name profile n cfg ts],
      ∃ e, lookupJoin (d.clusters.getD []) name = some e ∧
        ∃ m, e.instances = some m ∧
          (∀ i : Nat, i < n.toNat →
            ∃ v, lookupJoin m (instName name i) = some v ∧
              v.name = instName name i ∧ v.index = (i : Int)) ∧
          (∀ k v, lookupJoin
              ((getOrCreateCluster (data.clusters.getD []) name).instances.getD []) k =
                some v →
            ∃ v', lookupJoin m k = some v' ∧
              (v.state ≠ "" → v'.state = v.state) ∧
              (v.createdAt ≠ "" → v'.createdAt = v.createdAt) ∧
              (v.updatedAt ≠ "" → v'.updatedAt = v.updatedAt)) ∧
          (∀ k v', lookupJoin
              ((getOrCreateCluster (data.clusters.getD []) name).instances.getD []) k =
                none →
            lookupJoin m k = some v' → v'.state = instanceStateTerminated) := by
  intro data name profile n cfg ts hn hcoh d hd
  have hens : ensureClusterInstances name
      (getOrCreateCluster (data.clusters.getD []) name).instances n ts =
      ensureLoop name ts
        ((getOrCreateCluster (data.clusters.getD []) name).instances.getD []) n.toNat := by
    rw [ensureClusterInstances, if_neg (by omega : ¬ n ≤ 0)]
  have htarget := ensureLoop_target name ts
    ((getOrCreateCluster (data.clusters.getD []) name).instances.getD []) n.toNat hcoh
  have hpres := ensureLoop_preserve name ts
    ((getOrCreateCluster (data.clusters.getD []) name).instances.getD []) n.toNat
  have hnew := ensureLoop_new name ts
    ((getOrCreateCluster (data.clusters.getD []) name).instances.getD []) n.toNat
  simp only [List.mem_cons, List.not_mem_nil, or_false] at hd
  rcases hd with rfl | rfl
  · refine ⟨refreshClusterEntry (getOrCreateCluster (data.clusters.getD []) name)
      name profile n cfg ts "create", ?_, ?_⟩
    · rw [show (recordClusterCreate data name profile n cfg ts).clusters.getD [] =
          insertA (data.clusters.getD []) name
            (some (refreshClusterEntry (getOrCreateCluster (data.clusters.getD []) name)
              name profile n cfg ts "create")) from rfl,
        lookupJoin, lookupA_insertA_self]
      rfl
    · refine ⟨ensureLoop name ts
        ((getOrCreateCluster (data.clusters.getD []) name).instances.getD []) n.toNat,
        ?_, htarget, hpres, hnew⟩
      rw [show (refreshClusterEntry (getOrCreateCluster (data.clusters.getD []) name)
          name profile n cfg ts "create").instances =
        some (ensureClusterInstances name
          (getOrCreateCluster (data.clusters.getD []) name).instances n ts) from rfl, hens]
  · refine ⟨refreshClusterEntry (getOrCreateCluster (data.clusters.getD []) name)
      name profile n cfg ts "start", ?_, ?_⟩
    · rw [show (recordClusterStart data name profile n cfg ts).clusters.getD [] =
          insertA (data.clusters.getD []) name
            (some (refreshClusterEntry (getOrCreateCluster (data.clusters.getD []) name)
              name profile n cfg ts "start")) from rfl,
        lookupJoin, lookupA_insertA_self]
      rfl
    · refine ⟨ensureLoop name ts
        ((getOrCreateCluster (data.clusters.getD []) name).instances.getD []) n.toNat,
        ?_, htarget, hpres, hnew⟩
      rw [show (refreshClusterEntry (getOrCreateCluster (data.clusters.getD []) name)
          name profile n cfg ts "start").instances =
        some (ensureClusterInstances name
          (getOrCreateCluster (data.clusters.getD []) name).instances n ts) from rfl, hens]

/-- Witness for `recordCluster_ensure_invariant`: creating cluster `c`
with two instances in an empty document. -/
theorem recordCluster_ensure_invariant_witness :
    ∃ e, lookupJoin
        ((recordClusterCreate emptyDoc "c" "default" 2 ClusterConfig.zero "t1").clusters.getD [])
        "c" = some e ∧
      ∃ m, e.instances = some m ∧
        (∀ i : Nat, i < (2 : Int).toNat →
          ∃ v, lookupJoin m (instName "c" i) = some v ∧
            v.name = instName "c" i ∧ v.index = (i : Int)) ∧
        (∀ k v, lookupJoin
            ((getOrCreateCluster (emptyDoc.clusters.getD []) "c").instances.getD []) k =
              some v →
          ∃ v', lookupJoin m k = some v' ∧
            (v.state ≠ "" → v'.state = v.state) ∧
            (v.createdAt ≠ "" → v'.createdAt = v.createdAt) ∧
            (v.updatedAt ≠ "" → v'.updatedAt = v.updatedAt)) ∧
        (∀ k v', lookupJoin
            ((getOrCreateCluster (emptyDoc.clusters.getD []) "c").instances.getD []) k =
              none →
          lookupJoin m k = some v' → v'.state = instanceStateTerminated) := by
  have hcoh : ∀ k v, lookupJoin
      ((getOrCreateCluster (emptyDoc.clusters.getD []) "c").instances.getD []) k = some v →
      v.name = "" ∨ v.name = k := by
    intro k v h
    rw [show (getOrCreateCluster (emptyDoc.clusters.getD []) "c").instances.getD [] =
      ([] : InstMap) from rfl] at h
    simp [lookupJoin, lookupA] at h
  exact recordCluster_ensure_invariant emptyDoc "c" "default" 2 ClusterConfig.zero "t1"
    (by norm_num) hcoh
    (recordClusterCreate emptyDoc "c" "default" 2 ClusterConfig.zero "t1")
    (by simp)

/-- Go `strconv.Atoi` digits (no sign): all decimal digits, non-empty.
64-bit overflow is not modelled (indices are small). -/
def parseDigits (l : List Char) : Option Nat :=
  if l ≠ [] ∧ l.all isDigitChar then some (valAcc 0 l) else none

/-- Go `strconv.Atoi` with an optional sign. -/
def atoiInt (l : List Char) : Option Int :=
  match l with
  | '+' :: rest => (parseDigits rest).map (fun n => (n : Int))
  | '-' :: rest => (parseDigits rest).map (fun n => -(n : Int))
  | _ => (parseDigits l).map (fun n => (n : Int))

/-- Embedding of `state.parseInstanceIndex` (go/internal/state/store.go). -/
def parseInstanceIndex (clusterName instanceName : String) : Int :=
  let pfxChars := clusterName.data ++ ['-']
  if instanceName.data.take pfxChars.length = pfxChars then
    match atoiInt (instanceName.data.drop pfxChars.length) with
    | some idx => if idx < 0 then -1 else idx
    | none => -1
  else -1

/-- `&ClusterInstance\x7bName: instanceName\x7d`. -/
def ClusterInstance.freshNamed (name : String) : ClusterInstance :=
  ⟨name, 0, "", "", "", "", ""⟩

/-- Per-instance normalization of `Store.load` (go/internal/state/store.go):
nil entries are replaced, empty names defaulted from the key, the index
re-parsed from the name, and an empty state defaulted to terminated. -/
def loadInstanceEntry (clusterName : String) (q : String × Option ClusterInstance) :
    String × Option ClusterInstance :=
  let i0 := q.2.getD (ClusterInstance.freshNamed q.1)
  let i1 := { i0 with name := if i0.name = "" then q.1 else i0.name }
  (q.1, some { i1 with
    index := parseInstanceIndex clusterName i1.name
    state := if i1.state = "" then instanceStateTerminated
      else normalizeInstanceState i1.state })

/-- Per-cluster normalization of `Store.load`: nil entries replaced,
name defaulted from the key, instance records ensured and normalized,
and a legacy or empty status re-derived. -/
def loadClusterEntry (p : String × Option Cluster) : String × Option Cluster :=
  let c0 := p.2.getD (Cluster.fresh p.1)
  let c1 := { c0 with name := if c0.name = "" then p.1 else c0.name }
  let insts := (ensureClusterInstances c1.name c1.instances c1.numInstances
    c1.createdAt).map (loadInstanceEntry c1.name)
  (p.1, some { c1 with
    instances := some insts
    status := if c1.status = "" ∨ c1.status = "running" ∨ c1.status = "stopped"
      then deriveClusterState insts c1.numInstances else c1.status })

/-- Embedding of `Store.load` (go/internal/state/store.go) after JSON
parsing: `none` models a missing state file, `some d` the parsed
document.  A zero version is defaulted to the current version 3 before
the forward-compatibility check; nil maps are replaced by empty ones and
every cluster is normalized. -/
def loadData (file : Option Data) : Except String Data :=
  match file with
  | none => .ok { version := 3, updatedAt := "", clusters := some [], vms := some [] }
  | some d =>
    let v := if d.version = 0 then 3 else d.version
    if 3 < v then .error "state version is newer than supported"
    else
      .ok { d with
        version := v
        clusters := some ((d.clusters.getD []).map loadClusterEntry)
        vms := some (d.vms.getD []) }

/-- Embedding of `Store.save`'s version handling: an older in-memory
version is bumped to the current version 3 before writing. -/
def saveData (data : Data) : Data :=
  if data.version < 3 then { data with version := 3 } else data

/-- **C7 counterexample.** The claim says a document with an older
version is upgraded in place at load with the version set to the current
version.  Loading a version-2 document succeeds but returns the document
with version 2 unchanged (only a later save writes version 3). -/
theorem loadData_version_counterexample :
    loadData (some { version := 2, updatedAt := "", clusters := some [], vms := some [] }) =
      .ok { version := 2, updatedAt := "", clusters := some [], vms := some [] } ∧
    (2 : Int) ≠ 3 := by
  refine ⟨?_, by decide⟩
  rfl

/-- **C7 (amended).** Loading fails exactly when the stored version
exceeds the supported version 3.  A missing (zero) or older version
loads successfully; the version is set to the current version only when
it was zero (an older nonzero version is preserved in the loaded
document), nil cluster/VM maps are replaced by empty maps, every loaded
cluster and instance entry is non-nil, a nil or empty-state instance is
defaulted to terminated, and a subsequent save writes the current
version 3. -/
theorem loadData_spec :
    (∀ d : Data, (∃ r, loadData (some d) = .ok r) ↔ d.version ≤ 3) ∧
    (∀ d r, loadData (some d) = .ok r →
      r.version = (if d.version = 0 then 3 else d.version) ∧
      r.clusters = some ((d.clusters.getD []).map loadClusterEntry) ∧
      r.vms = some (d.vms.getD []) ∧
      (∀ p ∈ (d.clusters.getD []).map loadClusterEntry, ∃ c, p.2 = some c ∧
        ∃ m, c.instances = some m ∧ ∀ q ∈ m, ∃ i, q.2 = some i) ∧
      (saveData r).version = 3) ∧
    (∀ (clusterName : String) (q : String × Option ClusterInstance),
      (∀ i0, q.2 = some i0 → i0.state = "") →
      ∃ i, (loadInstanceEntry clusterName q).2 = some i ∧
        i.state = instanceStateTerminated) := by
  refine ⟨?_, ?_, ?_⟩
  · intro d
    by_cases h0 : d.version = 0
    · simp [loadData, h0]
    · by_cases h1 : (3 : Int) < d.version
      · simp [loadData, h0, if_pos h1]
        omega
      · simp [loadData, h0, if_neg h1]
        omega
  · intro d r h
    have hinst : ∀ p ∈ (d.clusters.getD []).map loadClusterEntry, ∃ c, p.2 = some c ∧
        ∃ m, c.instances = some m ∧ ∀ q ∈ m, ∃ i, q.2 = some i := by
      intro p hp
      rw [List.mem_map] at hp
      obtain ⟨p0, _, rfl⟩ := hp
      refine ⟨_, rfl, _, rfl, ?_⟩
      intro q hq
      rw [List.mem_map] at hq
      obtain ⟨q0, _, rfl⟩ := hq
      exact ⟨_, rfl⟩
    by_cases hv : 3 < (if d.version = 0 then (3 : Int) else d.version)
    · rw [show loadData (some d) = .error "state version is newer than supported" from by
        simp only [loadData]
        rw [if_pos hv]] at h
      exact absurd h (by simp)
    · have h' : loadData (some d) = .ok { d with
          version := if d.version = 0 then 3 else d.version
          clusters := some ((d.clusters.getD []).map loadClusterEntry)
          vms := some (d.vms.getD []) } := by
        simp only [loadData]
        rw [if_neg hv]
      have hr : r = { d with
          version := if d.version = 0 then 3 else d.version
          clusters := some ((d.clusters.getD []).map loadClusterEntry)
          vms := some (d.vms.getD []) } := by
        have h2 := h.symm.trans h'
        simp only [Except.ok.injEq] at h2
        exact h2
      subst hr
      set w : Int := if d.version = 0 then 3 else d.version with hw
      refine ⟨rfl, rfl, rfl, hinst, ?_⟩
      rw [saveData]
      by_cases hlt : w < 3
      · rw [if_pos hlt]
      · rw [if_neg hlt]
        show w = 3
        omega
  · intro clusterName q hq
    obtain ⟨k, oi⟩ := q
    match oi with
    | none =>
      refine ⟨_, rfl, ?_⟩
      simp [loadInstanceEntry, ClusterInstance.freshNamed]
    | some i0 =>
      have hs : i0.state = "" := hq i0 rfl
      refine ⟨_, rfl, ?_⟩
      simp [loadInstanceEntry, hs]

/-- Witness for `loadData_spec`: loading the empty document and
defaulting a nil instance entry. -/
theorem loadData_spec_witness :
    (emptyDoc.version = (if emptyDoc.version = 0 then 3 else emptyDoc.version) ∧
      emptyDoc.clusters = some ((emptyDoc.clusters.getD []).map loadClusterEntry) ∧
      emptyDoc.vms = some (emptyDoc.vms.getD []) ∧
      (∀ p ∈ (emptyDoc.clusters.getD []).map loadClusterEntry, ∃ c, p.2 = some c ∧
        ∃ m, c.instances = some m ∧ ∀ q ∈ m, ∃ i, q.2 = some i) ∧
      (saveData emptyDoc).version = 3) ∧
    ∃ i, (loadInstanceEntry "c" ("c-0", (none : Option ClusterInstance))).2 = some i ∧
      i.state = instanceStateTerminated :=
  ⟨loadData_spec.2.1 emptyDoc emptyDoc rfl,
    loadData_spec.2.2 "c" ("c-0", none) (fun _ h => by cases h)⟩

/-- Embedding of `markDeletedCluster` (status reconciler, cli package):
marks the record deleted with a timestamp unless it already is, and
always stamps the update time. -/
def markDeletedCluster (entry : Cluster) (now : String) : Cluster :=
  let e1 := if entry.status ≠ "deleted"
    then { entry with status := "deleted", deletedAt := now }
    else entry
  { e1 with updatedAt := now }

/-- Embedding of the missing-cluster branch of `statusSync` (status
reconciler, cli package — the revision shipped with state schema v3):
taken for a cluster known locally whose instances are found neither by
the broad managed-instances listing nor by the targeted per-cluster
re-query.  A record whose last action is `create` and which is not
already drift-marked deleted is marked terminated (populating a nil
instance map from the configured count); any other record is handed to
`markDeletedCluster`.  `key` is the cluster's map key, used for the
generated instance names. -/
def syncMissingClusterEntry (key : String) (entry : Cluster) (now : String) : Cluster :=
  if entry.lastAction = "create" ∧ entry.status ≠ "deleted" then
    let e1 :=
      if entry.instances = none then
        { entry with instances := some ((List.range entry.numInstances.toNat).map
            (fun i => (instName key i,
              some ⟨instName key i, (i : Int), instanceStateTerminated, "", "", "", now⟩))) }
      else entry
    { e1 with status := instanceStateTerminated, updatedAt := now }
  else markDeletedCluster entry now

theorem markDeletedCluster_status (entry : Cluster) (now : String) :
    (markDeletedCluster entry now).status = "deleted" ∧
    ((markDeletedCluster entry now).deletedAt =
      if entry.status ≠ "deleted" then now else entry.deletedAt) ∧
    (markDeletedCluster entry now).lastAction = entry.lastAction := by
  by_cases hs : entry.status = "deleted"
  · simp [markDeletedCluster, hs]
  · simp [markDeletedCluster, hs]

/-- **C4.** In the reconciler's missing-cluster step: a record whose last
action is `create` and which was never started (and not already
drift-marked deleted) is marked terminated — not deleted, its deletion
timestamp untouched; any other record is marked deleted with the current
timestamp, an already-deleted record keeping its original timestamp. -/
theorem syncMissing_spec :
    ∀ (key : String) (entry : Cluster) (now : String),
      (entry.lastAction = "create" ∧ entry.status ≠ "deleted" →
        (syncMissingClusterEntry key entry now).status = instanceStateTerminated ∧
        (syncMissingClusterEntry key entry now).deletedAt = entry.deletedAt) ∧
      (¬ (entry.lastAction = "create" ∧ entry.status ≠ "deleted") →
        (syncMissingClusterEntry key entry now).status = "deleted" ∧
        (entry.status ≠ "deleted" →
          (syncMissingClusterEntry key entry now).deletedAt = now) ∧
        (entry.status = "deleted" →
          (syncMissingClusterEntry key entry now).deletedAt = entry.deletedAt)) := by
  intro key entry now
  constructor
  · intro h
    by_cases hi : entry.instances = none
    · rw [syncMissingClusterEntry, if_pos h]
      simp [hi]
    · rw [syncMissingClusterEntry, if_pos h]
      simp [hi]
  · intro h
    rw [syncMissingClusterEntry, if_neg h]
    obtain ⟨h1, h2, _⟩ := markDeletedCluster_status entry now
    refine ⟨h1, ?_, ?_⟩
    · intro hns
      rw [h2, if_pos hns]
    · intro hs'
      rw [h2, if_neg (not_not_intro hs')]

/-- Witness for `syncMissing_spec`: a never-started created record is
marked terminated, keeping its (empty) deletion timestamp. -/
theorem syncMissing_spec_witness :
    let entryC : Cluster := {
      name := "c", profile := "default", numInstances := 1
      config := ClusterConfig.zero, instances := none, status := "TERMINATED"
      createdAt := "t0", updatedAt := "t0", lastAction := "create", lastActionAt := "t0"
      deletedAt := "" }
    (entryC.lastAction = "create" ∧ entryC.status ≠ "deleted") ∧
    (syncMissingClusterEntry "c" entryC "t1").status = instanceStateTerminated ∧
    (syncMissingClusterEntry "c" entryC "t1").deletedAt = entryC.deletedAt := by
  intro entryC
  refine ⟨⟨rfl, by decide⟩, ?_⟩
  exact (syncMissing_spec "c" entryC "t1").1 ⟨rfl, by decide⟩

/-- **C5.** Drift-deletion is idempotent: for a local record with a prior
`start` action and no remote instances found by either query, the first
missing-cluster pass marks it deleted and stamps the deletion timestamp,
and a second pass over the same remote state leaves both the deleted
status and the timestamp unchanged. -/
theorem syncMissing_idempotent :
    ∀ (key : String) (entry : Cluster) (now1 now2 : String),
      entry.lastAction = "start" → entry.status ≠ "deleted" →
      (syncMissingClusterEntry key entry now1).status = "deleted" ∧
      (syncMissingClusterEntry key entry now1).deletedAt = now1 ∧
      (syncMissingClusterEntry key
        (syncMissingClusterEntry key entry now1) now2).status = "deleted" ∧
      (syncMissingClusterEntry key
        (syncMissingClusterEntry key entry now1) now2).deletedAt = now1 := by
  intro key entry now1 now2 hstart hs
  have hne : ¬ (entry.lastAction = "create" ∧ entry.status ≠ "deleted") := by
    intro hc
    rw [hstart] at hc
    exact absurd hc.1 (by decide)
  have he1 : syncMissingClusterEntry key entry now1 =
      { entry with status := "deleted", deletedAt := now1, updatedAt := now1 } := by
    rw [syncMissingClusterEntry, if_neg hne]
    simp only [markDeletedCluster]
    rw [if_pos hs]
  have hne2 : ¬ (({ entry with status := "deleted", deletedAt := now1, updatedAt := now1 } : Cluster).lastAction = "create" ∧
      ({ entry with status := "deleted", deletedAt := now1, updatedAt := now1 } : Cluster).status ≠ "deleted") := by
    intro hc
    exact hc.2 rfl
  have he2 : syncMissingClusterEntry key
      ({ entry with status := "deleted", deletedAt := now1, updatedAt := now1 }) now2 =
      { entry with status := "deleted", deletedAt := now1, updatedAt := now2 } := by
    rw [syncMissingClusterEntry, if_neg hne2]
    simp only [markDeletedCluster]
    rw [if_neg (show ¬ ({ entry with status := "deleted", deletedAt := now1, updatedAt := now1 } : Cluster).status ≠ "deleted" from not_not_intro rfl)]
  rw [he1, he2]
  exact ⟨rfl, rfl, rfl, rfl⟩

/-- Witness for `syncMissing_idempotent` on a concrete started-then-lost
record. -/
theorem syncMissing_idempotent_witness :
    let entryS : Cluster := {
      name := "x", profile := "default", numInstances := 2
      config := ClusterConfig.zero, instances := some [], status := "READY"
      createdAt := "t0", updatedAt := "t0", lastAction := "start", lastActionAt := "t0"
      deletedAt := "" }
    (entryS.lastAction = "start" ∧ entryS.status ≠ "deleted") ∧
    (syncMissingClusterEntry "x" entryS "t1").status = "deleted" ∧
    (syncMissingClusterEntry "x" entryS "t1").deletedAt = "t1" ∧
    (syncMissingClusterEntry "x"
      (syncMissingClusterEntry "x" entryS "t1") "t2").status = "deleted" ∧
    (syncMissingClusterEntry "x"
      (syncMissingClusterEntry "x" entryS "t1") "t2").deletedAt = "t1" := by
  intro entryS
  refine ⟨⟨rfl, by decide⟩, ?_⟩
  exact syncMissing_idempotent "x" entryS "t1" "t2" rfl (by decide)

/-- A remote API call issued by the cluster service, as recorded in the
call trace of the abstract execution.  `ensureSSHKey` stands for the
whole `ssh.EnsureInstanceSSHKey` subroutine (a get plus a possible
metadata set) and is conservatively counted as mutating. -/
inductive Call where
  | getNetwork (name : String)
  | insertNetwork (name : String)
  | getSubnet (name : String)
  | insertSubnet (name : String)
  | getFirewall (name : String)
  | insertFirewall (name : String)
  | patchFirewall (name : String)
  | listInstancesCall (cluster : String)
  | getInstance (name : String)
  | getDisk (name : String)
  | insertInstance (name : String)
  | setTags (name : String)
  | ensureSSHKey (name : String)
  | startInstanceOp (name : String)
  | stopInstanceOp (name : String)
  | deleteInstance (name : String)
  | setDiskAutoDelete (name dev : String)
  | setScheduling (name : String)
  | deleteFirewall (name : String)
  | deleteSubnet (name : String)
  | deleteNetwork (name : String)
deriving DecidableEq, Repr

/-- Whether a call mutates remote state (get/list calls do not). -/
def Call.isMutating : Call → Bool
  | .getNetwork _ => false
  | .getSubnet _ => false
  | .getFirewall _ => false
  | .listInstancesCall _ => false
  | .getInstance _ => false
  | .getDisk _ => false
  | _ => true

/-- `compute.instances.delete` test. -/
def Call.isInstanceDelete : Call → Bool
  | .deleteInstance _ => true
  | _ => false

/-- `compute.firewalls.delete` test. -/
def Call.isFirewallDelete : Call → Bool
  | .deleteFirewall _ => true
  | _ => false

/-- `compute.subnetworks.delete` test. -/
def Call.isSubnetDelete : Call → Bool
  | .deleteSubnet _ => true
  | _ => false

/-- `compute.networks.delete` test. -/
def Call.isNetworkDelete : Call → Bool
  | .deleteNetwork _ => true
  | _ => false

/-- Any network-layer cleanup deletion (firewall, subnetwork or network). -/
def Call.isNetLayerDelete (c : Call) : Bool :=
  c.isFirewallDelete || c.isSubnetDelete || c.isNetworkDelete

/-- The configuration fields of `config.Config` the service's naming and
tagging depend on. -/
structure SvcConfig where
  networkNamePfx : String
  tagsBase : List String
deriving DecidableEq, Repr

/-- `Service.clusterNetworkName`. -/
def networkNameOf (cfg : SvcConfig) (clusterName : String) : String :=
  cfg.networkNamePfx ++ "-" ++ clusterName

/-- `Service.clusterSubnetName`. -/
def subnetNameOf (networkName : String) : String := networkName ++ "-subnet"

/-- `Service.clusterTag`. -/
def clusterTagOf (clusterName : String) : String := "cluster-" ++ clusterName

/-- `Service.masterTag`. -/
def masterTagOf (clusterName : String) : String := "cluster-" ++ clusterName ++ "-master"

/-- `Service.clusterTags`: the cluster tag, plus the master tag and the
configured base tags for index 0. -/
def clusterTags (cfg : SvcConfig) (clusterName : String) (master : Bool) : List String :=
  clusterTagOf clusterName ::
    (if master then masterTagOf clusterName :: cfg.tagsBase else [])

/-- `cluster.containsAll` (service.go): every required tag is present. -/
def containsAll (existing required : List String) : Bool :=
  required.all (fun t => existing.contains t)

/-- Concatenation of per-element call traces in order (the sequential
shadow of the per-instance fan-out: the trace records which calls are
issued; ordering across sibling instances is not claimed). -/
def concatMapL {α β : Type} (f : α → List β) : List α → List β
  | [] => []
  | x :: xs => f x ++ concatMapL f xs

/-- A remote instance as seen by `Service.Start`'s per-instance branch. -/
structure RemoteInst where
  status : String
  tags : List String
deriving DecidableEq, Repr

/-- The abstract remote inventory `Service.Start` runs against.  Get
calls succeed exactly when the named resource is present; remote
operations and waits are modelled as succeeding. -/
structure Remote where
  networks : List String
  subnets : List String
  firewalls : List String
  instances : List (String × RemoteInst)
deriving DecidableEq, Repr

/-- Call trace of `Service.ensureNetwork`: get, then insert if absent. -/
def ensureNetworkCalls (r : Remote) (n : String) : List Call :=
  if r.networks.contains n then [Call.getNetwork n]
  else [Call.getNetwork n, Call.insertNetwork n]

/-- Call trace of `Service.ensureSubnetwork`. -/
def ensureSubnetCalls (r : Remote) (sn : String) : List Call :=
  if r.subnets.contains sn then [Call.getSubnet sn]
  else [Call.getSubnet sn, Call.insertSubnet sn]

/-- Call trace of `Service.ensureFirewall`: get, then patch if present
(full replace on every pass) or insert if absent. -/
def ensureFirewallCalls (r : Remote) (rule : String) : List Call :=
  if r.firewalls.contains rule then [Call.getFirewall rule, Call.patchFirewall rule]
  else [Call.getFirewall rule, Call.insertFirewall rule]

/-- Call trace of `Service.Start`'s per-instance task for index `i`:
get; if the instance exists, reconcile tags (mutating call only when
required tags are missing), optionally ensure the SSH key, and start
unless already running; if absent, build (a disk get inside
`Builder.Build`) and insert, then optionally ensure the SSH key. -/
def instStartCalls (cfg : SvcConfig) (r : Remote) (clusterName sshUser sshKey : String)
    (i : Nat) : List Call :=
  match lookupA r.instances (instName clusterName i) with
  | some inst =>
    Call.getInstance (instName clusterName i) ::
      ((if containsAll inst.tags (clusterTags cfg clusterName (i = 0)) then []
        else [Call.setTags (instName clusterName i)]) ++
       (if sshUser ≠ "" ∧ sshKey ≠ "" then [Call.ensureSSHKey (instName clusterName i)]
        else []) ++
       (if inst.status = "RUNNING" then []
        else [Call.startInstanceOp (instName clusterName i)]))
  | none =>
    [Call.getInstance (instName clusterName i), Call.getDisk (instName clusterName i),
      Call.insertInstance (instName clusterName i)] ++
      (if sshUser ≠ "" ∧ sshKey ≠ "" then [Call.ensureSSHKey (instName clusterName i)]
       else [])

/-- Embedding of `Service.Start` (go/internal/cluster/service.go) as a
call trace over the abstract remote: validation first (no calls on
failure), then the network, subnetwork, three firewall rules, and the
per-instance fan-out.  Local steps (region parse, subnet derivation,
cloud-init render) issue no remote calls and are modelled as
succeeding. -/
def serviceStart (cfg : SvcConfig) (clusterName : String) (numInstances : Int)
    (sshUser sshKey : String) (r : Remote) : List Call × Option String :=
  if ¬ isResourceName clusterName then ([], some "invalid cluster name")
  else if numInstances ≤ 0 then ([], some "num-instances must be >= 1")
  else
    (ensureNetworkCalls r (networkNameOf cfg clusterName) ++
     ensureSubnetCalls r (subnetNameOf (networkNameOf cfg clusterName)) ++
     ensureFirewallCalls r (networkNameOf cfg clusterName ++ "-internal") ++
     ensureFirewallCalls r (networkNameOf cfg clusterName ++ "-ssh") ++
     ensureFirewallCalls r (networkNameOf cfg clusterName ++ "-ports") ++
     concatMapL (instStartCalls cfg r clusterName sshUser sshKey)
       (List.range numInstances.toNat),
     none)

/-- A remote instance as listed by `Service.Stop`/`Service.Update`. -/
structure StopInst where
  name : String
  status : String
  disks : List String
deriving DecidableEq, Repr

/-- The abstract remote inventory for `Service.Stop`: the instances the
cluster-label listing returns and which network-layer resources exist
(deleting an absent one reports not-found). -/
structure StopRemote where
  instances : List StopInst
  firewalls : List String
  subnets : List String
  networks : List String
deriving DecidableEq, Repr

/-- Result of a remote cleanup deletion in the abstract remote: absent
resources report not-found; other failures do not occur. -/
inductive RemoteErr where
  | notFound
  | other
deriving DecidableEq, Repr

/-- The abstract remote's answer to a cleanup delete call. -/
def remoteDelete (present : Bool) : Option RemoteErr :=
  if present then none else some .notFound

/-- Call trace of one per-instance task of `Service.Stop`: on delete,
set each boot disk's auto-delete flag then delete the instance; on plain
stop, skip already-terminated instances, else stop. -/
def perInstanceStopCalls (del : Bool) (inst : StopInst) : List Call :=
  if del then
    inst.disks.map (fun dev => Call.setDiskAutoDelete inst.name dev) ++
      [Call.deleteInstance inst.name]
  else if inst.status = "TERMINATED" then []
  else [Call.stopInstanceOp inst.name]

/-- The firewall-rule cleanup loop of `Service.Stop`: each delete call
is issued; a not-found response is treated as success and the loop
continues; any other error aborts the loop. -/
def fwCleanup (r : StopRemote) : List String → List Call × Option String
  | [] => ([], none)
  | rule :: rest =>
    match remoteDelete (r.firewalls.contains rule) with
    | some .notFound =>
      let next := fwCleanup r rest
      (Call.deleteFirewall rule :: next.1, next.2)
    | some .other => ([Call.deleteFirewall rule], some "firewall delete failed")
    | none =>
      let next := fwCleanup r rest
      (Call.deleteFirewall rule :: next.1, next.2)

/-- The subnetwork cleanup step of `Service.Stop` (not-found tolerated). -/
def subnetCleanup (r : StopRemote) (sn : String) : List Call × Option String :=
  match remoteDelete (r.subnets.contains sn) with
  | some .notFound => ([Call.deleteSubnet sn], none)
  | some .other => ([Call.deleteSubnet sn], some "subnet delete failed")
  | none => ([Call.deleteSubnet sn], none)

/-- The network cleanup step of `Service.Stop` (not-found tolerated). -/
def networkCleanup (r : StopRemote) (nw : String) : List Call × Option String :=
  match remoteDelete (r.networks.contains nw) with
  | some .notFound => ([Call.deleteNetwork nw], none)
  | some .other => ([Call.deleteNetwork nw], some "network delete failed")
  | none => ([Call.deleteNetwork nw], none)

/-- Embedding of `Service.Stop` (go/internal/cluster/service.go) as a
call trace: validation, the cluster-instance listing, the per-instance
fan-out, and — for delete — the firewall, subnetwork and network cleanup
in that order. -/
def serviceStop (cfg : SvcConfig) (clusterName : String)
    (del keepDisks deleteDisks : Bool) (r : StopRemote) : List Call × Option String :=
  if ¬ isResourceName clusterName then ([], some "invalid cluster name")
  else if ¬ del ∧ (keepDisks ∨ deleteDisks) then ([], some "delete-disks requires delete")
  else if r.instances.isEmpty then ([Call.listInstancesCall clusterName], none)
  else
    let instTrace := concatMapL (perInstanceStopCalls del) r.instances
    if del then
      let nw := networkNameOf cfg clusterName
      let fw := fwCleanup r [nw ++ "-internal", nw ++ "-ssh", nw ++ "-ports"]
      match fw.2 with
      | some e => (Call.listInstancesCall clusterName :: (instTrace ++ fw.1), some e)
      | none =>
        let sb := subnetCleanup r (subnetNameOf nw)
        match sb.2 with
        | some e =>
          (Call.listInstancesCall clusterName :: (instTrace ++ fw.1 ++ sb.1), some e)
        | none =>
          let nt := networkCleanup r nw
          (Call.listInstancesCall clusterName :: (instTrace ++ fw.1 ++ sb.1 ++ nt.1),
            nt.2)
    else (Call.listInstancesCall clusterName :: instTrace, none)

/-- Call trace of one per-instance task of `Service.Update`: a running
instance is refused with a warning (no call); a terminated one gets its
scheduling updated. -/
def perInstanceUpdateCalls (inst : StopInst) : List Call :=
  if inst.status ≠ "TERMINATED" then [] else [Call.setScheduling inst.name]

/-- Embedding of `Service.Update` (go/internal/cluster/service.go) as a
call trace: validation, the listing, then the per-instance fan-out. -/
def serviceUpdate (clusterName : String) (maxRunHours : Int) (r : StopRemote) :
    List Call × Option String :=
  if ¬ isResourceName clusterName then ([], some "invalid cluster name")
  else if maxRunHours ≤ 0 then ([], some "max-hours must be >= 1")
  else
    (Call.listInstancesCall clusterName ::
      concatMapL perInstanceUpdateCalls r.instances, none)

/-- **C9.** Validation errors are rejected before any remote call: with
an invalid cluster name or non-positive instance count, `Service.Start`
returns an error with an empty call trace; `Service.Stop` does likewise
for an invalid name or disk flags without delete; `Service.Update` for
an invalid name or non-positive max run hours. -/
theorem service_validation_first :
    (∀ (cfg : SvcConfig) (c : String) (n : Int) (u k : String) (r : Remote),
      isResourceName c = false →
      serviceStart cfg c n u k r = ([], some "invalid cluster name")) ∧
    (∀ (cfg : SvcConfig) (c : String) (n : Int) (u k : String) (r : Remote),
      isResourceName c = true → n ≤ 0 →
      serviceStart cfg c n u k r = ([], some "num-instances must be >= 1")) ∧
    (∀ (cfg : SvcConfig) (c : String) (del keep dd : Bool) (r : StopRemote),
      isResourceName c = false →
      serviceStop cfg c del keep dd r = ([], some "invalid cluster name")) ∧
    (∀ (cfg : SvcConfig) (c : String) (keep dd : Bool) (r : StopRemote),
      isResourceName c = true → (keep || dd) = true →
      serviceStop cfg c false keep dd r = ([], some "delete-disks requires delete")) ∧
    (∀ (c : String) (h : Int) (r : StopRemote),
      isResourceName c = false →
      serviceUpdate c h r = ([], some "invalid cluster name")) ∧
    (∀ (c : String) (h : Int) (r : StopRemote),
      isResourceName c = true → h ≤ 0 →
      serviceUpdate c h r = ([], some "max-hours must be >= 1")) := by
  refine ⟨?_, ?_, ?_, ?_, ?_, ?_⟩
  · intro cfg c n u k r h
    simp [serviceStart, h]
  · intro cfg c n u k r h1 h2
    rw [serviceStart, if_neg (by simp [h1]), if_pos h2]
  · intro cfg c del keep dd r h
    simp [serviceStop, h]
  · intro cfg c keep dd r h1 h2
    rw [serviceStop, if_neg (by simp [h1]),
      if_pos ⟨by simp, (Bool.or_eq_true _ _).mp h2⟩]
  · intro c h r hname
    simp [serviceUpdate, hname]
  · intro c h r h1 h2
    rw [serviceUpdate, if_neg (by simp [h1]), if_pos h2]

/-- Witness for `service_validation_first`: the name `-x` fails
validation and start issues no call. -/
theorem service_validation_first_witness :
    isResourceName "-x" = false ∧
    serviceStart ⟨"gpunow", []⟩ "-x" 3 "" "" ⟨[], [], [], []⟩ =
      ([], some "invalid cluster name") :=
  ⟨by decide,
    service_validation_first.1 ⟨"gpunow", []⟩ "-x" 3 "" "" ⟨[], [], [], []⟩ (by decide)⟩

theorem filter_concatMapL {α : Type} (f : α → List Call) (p : Call → Bool) :
    ∀ l : List α, (∀ x ∈ l, (f x).filter p = []) →
      (concatMapL f l).filter p = [] := by
  intro l
  induction l with
  | nil => intro _; rfl
  | cons x xs ih =>
    intro h
    rw [show concatMapL f (x :: xs) = f x ++ concatMapL f xs from rfl,
      List.filter_append, h x (List.mem_cons_self _ _),
      ih (fun y hy => h y (List.mem_cons_of_mem _ hy))]
    rfl

/-- **C1.** A second full provisioning pass against a remote that already
reflects the first pass's effects — network, subnetwork and the three
firewall rules exist, every instance exists with status RUNNING and with
its required tags (and no SSH key option is in play) — succeeds and
performs exactly the three firewall patch calls as mutating remote
calls: in particular zero network/subnetwork/instance inserts and zero
instance starts. -/
theorem serviceStart_idempotent :
    ∀ (cfg : SvcConfig) (clusterName : String) (n : Int) (r : Remote),
    isResourceName clusterName = true → 0 < n →
    r.networks.contains (networkNameOf cfg clusterName) = true →
    r.subnets.contains (subnetNameOf (networkNameOf cfg clusterName)) = true →
    r.firewalls.contains (networkNameOf cfg clusterName ++ "-internal") = true →
    r.firewalls.contains (networkNameOf cfg clusterName ++ "-ssh") = true →
    r.firewalls.contains (networkNameOf cfg clusterName ++ "-ports") = true →
    (∀ i : Nat, i < n.toNat →
      ∃ inst, lookupA r.instances (instName clusterName i) = some inst ∧
        inst.status = "RUNNING" ∧
        containsAll inst.tags (clusterTags cfg clusterName (i = 0)) = true) →
    (serviceStart cfg clusterName n "" "" r).2 = none ∧
    (serviceStart cfg clusterName n "" "" r).1.filter Call.isMutating =
      [Call.patchFirewall (networkNameOf cfg clusterName ++ "-internal"),
        Call.patchFirewall (networkNameOf cfg clusterName ++ "-ssh"),
        Call.patchFirewall (networkNameOf cfg clusterName ++ "-ports")] := by
  intro cfg clusterName n r hname hn hnw hsn hf1 hf2 hf3 hinst
  refine ⟨?_, ?_⟩
  · rw [serviceStart, if_neg (by simp [hname]), if_neg (by omega)]
  · rw [serviceStart, if_neg (by simp [hname]), if_neg (by omega)]
    have hF : (concatMapL (instStartCalls cfg r clusterName "" "")
        (List.range n.toNat)).filter Call.isMutating = [] := by
      apply filter_concatMapL
      intro i hi
      rw [List.mem_range] at hi
      obtain ⟨inst, hlook, hrun, htags⟩ := hinst i hi
      simp [instStartCalls, hlook, htags, hrun, Call.isMutating]
    rw [ensureNetworkCalls, if_pos hnw, ensureSubnetCalls, if_pos hsn,
      ensureFirewallCalls, if_pos hf1, ensureFirewallCalls, if_pos hf2,
      ensureFirewallCalls, if_pos hf3]
    simp [List.filter_append, hF, Call.isMutating, List.filter]

/-- Remote state reflecting a completed first provisioning pass for
cluster `c` with two instances under network prefix `gpunow`. -/
def provisionedRemote : Remote :=
  { networks := ["gpunow-c"]
    subnets := ["gpunow-c-subnet"]
    firewalls := ["gpunow-c-internal", "gpunow-c-ssh", "gpunow-c-ports"]
    instances := [("c-0", ⟨"RUNNING", ["cluster-c", "cluster-c-master"]⟩),
      ("c-1", ⟨"RUNNING", ["cluster-c"]⟩)] }

/-- Witness for `serviceStart_idempotent` on `provisionedRemote`. -/
theorem serviceStart_idempotent_witness :
    (serviceStart ⟨"gpunow", []⟩ "c" 2 "" "" provisionedRemote).2 = none ∧
    (serviceStart ⟨"gpunow", []⟩ "c" 2 "" "" provisionedRemote).1.filter Call.isMutating =
      [Call.patchFirewall (networkNameOf ⟨"gpunow", []⟩ "c" ++ "-internal"),
        Call.patchFirewall (networkNameOf ⟨"gpunow", []⟩ "c" ++ "-ssh"),
        Call.patchFirewall (networkNameOf ⟨"gpunow", []⟩ "c" ++ "-ports")] :=
  serviceStart_idempotent ⟨"gpunow", []⟩ "c" 2 provisionedRemote (by decide) (by norm_num)
    (by decide) (by decide) (by decide) (by decide) (by decide)
    (fun i hi => by
      have hi2 : i < 2 := by simpa using hi
      interval_cases i
      · exact ⟨⟨"RUNNING", ["cluster-c", "cluster-c-master"]⟩, by decide, rfl, by decide⟩
      · exact ⟨⟨"RUNNING", ["cluster-c"]⟩, by decide, rfl, by decide⟩)

theorem fwCleanup_eq (r : StopRemote) :
    ∀ rules, fwCleanup r rules = (rules.map Call.deleteFirewall, none) := by
  intro rules
  induction rules with
  | nil => rfl
  | cons rule rest ih =>
    simp only [fwCleanup, remoteDelete, ih]
    split
    · rfl
    · rename_i heq
      exfalso
      by_cases hc : r.firewalls.contains rule = true
      · rw [if_pos hc] at heq
        exact Option.noConfusion heq
      · rw [if_neg hc] at heq
        simp at heq
    · rfl

theorem subnetCleanup_eq (r : StopRemote) (sn : String) :
    subnetCleanup r sn = ([Call.deleteSubnet sn], none) := by
  simp only [subnetCleanup, remoteDelete]
  split
  · rfl
  · rename_i heq
    exfalso
    by_cases hc : r.subnets.contains sn = true
    · rw [if_pos hc] at heq
      exact Option.noConfusion heq
    · rw [if_neg hc] at heq
      simp at heq
  · rfl

theorem networkCleanup_eq (r : StopRemote) (nw : String) :
    networkCleanup r nw = ([Call.deleteNetwork nw], none) := by
  simp only [networkCleanup, remoteDelete]
  split
  · rfl
  · rename_i heq
    exfalso
    by_cases hc : r.networks.contains nw = true
    · rw [if_pos hc] at heq
      exact Option.noConfusion heq
    · rw [if_neg hc] at heq
      simp at heq
  · rfl

theorem serviceStop_delete_eq (cfg : SvcConfig) (clusterName : String)
    (keepD delD : Bool) (r : StopRemote)
    (hname : isResourceName clusterName = true) (hne : r.instances.isEmpty = false) :
    serviceStop cfg clusterName true keepD delD r =
      (Call.listInstancesCall clusterName ::
        (concatMapL (perInstanceStopCalls true) r.instances ++
          [Call.deleteFirewall (networkNameOf cfg clusterName ++ "-internal"),
            Call.deleteFirewall (networkNameOf cfg clusterName ++ "-ssh"),
            Call.deleteFirewall (networkNameOf cfg clusterName ++ "-ports")] ++
          [Call.deleteSubnet (subnetNameOf (networkNameOf cfg clusterName))] ++
          [Call.deleteNetwork (networkNameOf cfg clusterName)]), none) := by
  rw [serviceStop, if_neg (by simp [hname]), if_neg (by simp), if_neg (by simp [hne])]
  simp [fwCleanup_eq, subnetCleanup_eq, networkCleanup_eq]

theorem mem_concatMapL {α β : Type} (f : α → List β) (l : List α) (x : β) :
    x ∈ concatMapL f l ↔ ∃ y ∈ l, x ∈ f y := by
  induction l with
  | nil => simp [concatMapL]
  | cons a as ih => simp [concatMapL, List.mem_append, ih]

theorem get_append_cases (a b : List Call) (i : Nat) (hi : i < (a ++ b).length) :
    (i < a.length ∧ (a ++ b).get ⟨i, hi⟩ ∈ a) ∨
      (a.length ≤ i ∧ (a ++ b).get ⟨i, hi⟩ ∈ b) := by
  induction a generalizing i with
  | nil =>
    right
    exact ⟨Nat.zero_le _, List.get_mem _ _ _⟩
  | cons x xs ih =>
    cases i with
    | zero => exact Or.inl ⟨Nat.succ_pos _, List.mem_cons_self _ _⟩
    | succ n =>
      have hn : n < (xs ++ b).length := by
        simpa [Nat.succ_lt_succ_iff] using hi
      rcases ih n hn with ⟨h1, h2⟩ | ⟨h1, h2⟩
      · exact Or.inl ⟨Nat.succ_lt_succ h1, List.mem_cons_of_mem _ h2⟩
      · exact Or.inr ⟨Nat.succ_le_succ h1, h2⟩

/-- Every position of `L` holding a `P`-call precedes every position
holding a `Q`-call. -/
def ordered (L : List Call) (P Q : Call → Bool) : Prop :=
  ∀ i j (hi : i < L.length) (hj : j < L.length),
    P (L.get ⟨i, hi⟩) = true → Q (L.get ⟨j, hj⟩) = true → i < j

theorem ordered_of_split (l a b : List Call) (P Q : Call → Bool) (hl : l = a ++ b)
    (hPb : ∀ x ∈ b, P x = false) (hQa : ∀ x ∈ a, Q x = false) :
    ordered l P Q := by
  subst hl
  intro i j hi hj hP hQ
  rcases get_append_cases a b i hi with ⟨hia, _⟩ | ⟨_, hmem⟩
  · rcases get_append_cases a b j hj with ⟨_, hjmem⟩ | ⟨hja, _⟩
    · rw [hQa _ hjmem] at hQ
      exact absurd hQ (by simp)
    · omega
  · rw [hPb _ hmem] at hP
    exact absurd hP (by simp)

theorem perStop_shape (insts : List StopInst) :
    ∀ x ∈ concatMapL (perInstanceStopCalls true) insts,
      (∃ n d, x = Call.setDiskAutoDelete n d) ∨ (∃ n, x = Call.deleteInstance n) := by
  intro x hx
  rw [mem_concatMapL] at hx
  obtain ⟨inst, _, hxin⟩ := hx
  simp only [perInstanceStopCalls, if_true] at hxin
  rw [List.mem_append] at hxin
  rcases hxin with hxm | hxs
  · rw [List.mem_map] at hxm
    obtain ⟨d, _, rfl⟩ := hxm
    exact Or.inl ⟨_, _, rfl⟩
  · rw [List.mem_singleton] at hxs
    subst hxs
    exact Or.inr ⟨_, rfl⟩

/-- **C6.** In a delete-with-cleanup (`Service.Stop` with `Delete=true`,
valid name, non-empty instance listing): the call returns no error for
every remote state — in particular a not-found response on any firewall,
subnetwork or network deletion is treated as success — and in the call
trace, every per-instance delete precedes every firewall/subnetwork/
network delete, every firewall delete precedes the subnetwork and
network deletes, and the subnetwork delete precedes the network
delete. -/
theorem serviceStop_cleanup_order :
    ∀ (cfg : SvcConfig) (clusterName : String) (keepDisks deleteDisks : Bool)
      (r : StopRemote),
    isResourceName clusterName = true →
    r.instances.isEmpty = false →
    (serviceStop cfg clusterName true keepDisks deleteDisks r).2 = none ∧
    ordered (serviceStop cfg clusterName true keepDisks deleteDisks r).1
      Call.isInstanceDelete Call.isNetLayerDelete ∧
    ordered (serviceStop cfg clusterName true keepDisks deleteDisks r).1
      Call.isFirewallDelete (fun c => c.isSubnetDelete || c.isNetworkDelete) ∧
    ordered (serviceStop cfg clusterName true keepDisks deleteDisks r).1
      Call.isSubnetDelete Call.isNetworkDelete := by
  intro cfg clusterName keepD delD r hname hne
  have heq := serviceStop_delete_eq cfg clusterName keepD delD r hname hne
  have hL : (serviceStop cfg clusterName true keepD delD r).1 =
      Call.listInstancesCall clusterName ::
        (concatMapL (perInstanceStopCalls true) r.instances ++
          [Call.deleteFirewall (networkNameOf cfg clusterName ++ "-internal"),
            Call.deleteFirewall (networkNameOf cfg clusterName ++ "-ssh"),
            Call.deleteFirewall (networkNameOf cfg clusterName ++ "-ports")] ++
          [Call.deleteSubnet (subnetNameOf (networkNameOf cfg clusterName))] ++
          [Call.deleteNetwork (networkNameOf cfg clusterName)]) := by
    rw [heq]
  have hinstA : ∀ x ∈ Call.listInstancesCall clusterName ::
      concatMapL (perInstanceStopCalls true) r.instances,
      Call.isNetLayerDelete x = false ∧ Call.isNetworkDelete x = false ∧
      (Call.isSubnetDelete x || Call.isNetworkDelete x) = false := by
    intro x hx
    rcases List.mem_cons.mp hx with rfl | hx2
    · exact ⟨rfl, rfl, rfl⟩
    · rcases perStop_shape r.instances x hx2 with ⟨n, d, rfl⟩ | ⟨n, rfl⟩
      · exact ⟨rfl, rfl, rfl⟩
      · exact ⟨rfl, rfl, rfl⟩
  refine ⟨by rw [heq], ?_, ?_, ?_⟩
  · rw [hL]
    apply ordered_of_split _
      (Call.listInstancesCall clusterName ::
        concatMapL (perInstanceStopCalls true) r.instances)
      ([Call.deleteFirewall (networkNameOf cfg clusterName ++ "-internal"),
        Call.deleteFirewall (networkNameOf cfg clusterName ++ "-ssh"),
        Call.deleteFirewall (networkNameOf cfg clusterName ++ "-ports")] ++
        [Call.deleteSubnet (subnetNameOf (networkNameOf cfg clusterName))] ++
        [Call.deleteNetwork (networkNameOf cfg clusterName)])
      Call.isInstanceDelete Call.isNetLayerDelete
    · simp [List.append_assoc]
    · intro x hx
      simp only [List.mem_append, List.mem_cons, List.mem_singleton,
        List.not_mem_nil, or_false] at hx
      rcases hx with ((rfl | rfl | rfl) | rfl) | rfl <;> rfl
    · intro x hx
      exact (hinstA x hx).1
  · rw [hL]
    apply ordered_of_split _
      ((Call.listInstancesCall clusterName ::
        concatMapL (perInstanceStopCalls true) r.instances) ++
        [Call.deleteFirewall (networkNameOf cfg clusterName ++ "-internal"),
          Call.deleteFirewall (networkNameOf cfg clusterName ++ "-ssh"),
          Call.deleteFirewall (networkNameOf cfg clusterName ++ "-ports")])
      ([Call.deleteSubnet (subnetNameOf (networkNameOf cfg clusterName))] ++
        [Call.deleteNetwork (networkNameOf cfg clusterName)])
      Call.isFirewallDelete (fun c => c.isSubnetDelete || c.isNetworkDelete)
    · simp [List.append_assoc]
    · intro x hx
      simp only [List.mem_append, List.mem_singleton, List.not_mem_nil,
        or_false] at hx
      rcases hx with rfl | rfl <;> rfl
    · intro x hx
      rw [List.mem_append] at hx
      rcases hx with hx1 | hx2
      · exact (hinstA x hx1).2.2
      · simp only [List.mem_cons, List.mem_singleton, List.not_mem_nil,
          or_false] at hx2
        rcases hx2 with rfl | rfl | rfl <;> rfl
  · rw [hL]
    apply ordered_of_split _
      ((Call.listInstancesCall clusterName ::
        concatMapL (perInstanceStopCalls true) r.instances) ++
        [Call.deleteFirewall (networkNameOf cfg clusterName ++ "-internal"),
          Call.deleteFirewall (networkNameOf cfg clusterName ++ "-ssh"),
          Call.deleteFirewall (networkNameOf cfg clusterName ++ "-ports")] ++
        [Call.deleteSubnet (subnetNameOf (networkNameOf cfg clusterName))])
      [Call.deleteNetwork (networkNameOf cfg clusterName)]
      Call.isSubnetDelete Call.isNetworkDelete
    · simp [List.append_assoc]
    · intro x hx
      rw [List.mem_singleton] at hx
      subst hx
      rfl
    · intro x hx
      simp only [List.mem_append] at hx
      rcases hx with (hx1 | hx2) | hx3
      · exact (hinstA x hx1).2.1
      · simp only [List.mem_cons, List.mem_singleton, List.not_mem_nil,
          or_false] at hx2
        rcases hx2 with rfl | rfl | rfl <;> rfl
      · rw [List.mem_singleton] at hx3
        subst hx3
        rfl

/-- Remote inventory for the `serviceStop_cleanup_order` witness: one
instance, and no network-layer resources present, so every cleanup
deletion reports not-found. -/
def stopRemoteSample : StopRemote :=
  { instances := [⟨"c-0", "RUNNING", ["boot-c-0"]⟩]
    firewalls := []
    subnets := []
    networks := [] }

/-- Witness for `serviceStop_cleanup_order` on `stopRemoteSample`. -/
theorem serviceStop_cleanup_order_witness :
    (serviceStop ⟨"gpunow", []⟩ "c" true false false stopRemoteSample).2 = none ∧
    ordered (serviceStop ⟨"gpunow", []⟩ "c" true false false stopRemoteSample).1
      Call.isInstanceDelete Call.isNetLayerDelete ∧
    ordered (serviceStop ⟨"gpunow", []⟩ "c" true false false stopRemoteSample).1
      Call.isFirewallDelete (fun c => c.isSubnetDelete || c.isNetworkDelete) ∧
    ordered (serviceStop ⟨"gpunow", []⟩ "c" true false false stopRemoteSample).1
      Call.isSubnetDelete Call.isNetworkDelete :=
  serviceStop_cleanup_order ⟨"gpunow", []⟩ "c" false false stopRemoteSample
    (by decide) (by decide)

end GpuNow
